import Mathlib

/-!
# Verification development for container-engine-accelerators

Two programs are embedded:

* `cmd/nvidia_gpu/nvidia_gpu.go` : the device-plugin entry point (`main`), with the
  parts of the Go standard library it calls (`fmt.Sprintf`, `strconv.FormatInt`,
  `flag.String`, `flag.Parse`, `time.Sleep`, `time.Now`) modelled as far as `main`
  uses them; the wall clock is part of the state of a run;
* `vendor/k8s.io/kubernetes/pkg/registry/core/serviceaccount/storage/token.go` :
  `TokenREST.Create`.
-/

namespace Fmt

/-- Base-10 output of `strconv.formatBits`: the decimal digits of `u`, most significant
first, with no leading zero (a single `0` for zero). -/
def formatBits (u : Nat) : List Char :=
  if u < 10 then [Nat.digitChar u]
  else formatBits (u / 10) ++ [Nat.digitChar (u % 10)]
termination_by u
decreasing_by omega

/-- Base-10 `strconv.FormatInt(i, 10)` for an `int64` operand. The magnitude is
computed as in Go on `uint64`: `u = uint64(i)` and `u = -u` (wrapping) when `i < 0`. -/
def FormatInt (i : Int) : String :=
  if i < 0 then String.mk ('-' :: formatBits ((-i) % 2 ^ 64).toNat)
  else String.mk (formatBits (i % 2 ^ 64).toNat)

/-- Operands of `fmt.Sprintf` that occur in the embedded programs. -/
inductive Arg where
  | str (s : String)
  | int64 (i : Int)
deriving Repr, DecidableEq

/-- Fragment of `fmt.(*pp).doPrintf`: literal text, `%%`, `%s` on a string operand and
`%d` on an `int64` operand, with no flags, width or precision. The result is `none`
when the format leaves this fragment (another verb, a verb whose operand is missing
or of another type, operands left over), where Go prints a `%!` diagnostic. -/
def doPrintf : List Char → List Arg → Option (List Char)
  | [], [] => some []
  | [], _ :: _ => none
  | c :: rest, args =>
    if c = '%' then
      match rest, args with
      | v :: rest', a :: args' =>
        if v = '%' then (doPrintf rest' args).map (fun out => '%' :: out)
        else if v = 's' then
          match a with
          | Arg.str s => (doPrintf rest' args').map (fun out => s.data ++ out)
          | Arg.int64 _ => none
        else if v = 'd' then
          match a with
          | Arg.int64 i => (doPrintf rest' args').map (fun out => (FormatInt i).data ++ out)
          | Arg.str _ => none
        else none
      | v :: rest', [] =>
        if v = '%' then (doPrintf rest' []).map (fun out => '%' :: out) else none
      | [], _ => none
    else (doPrintf rest args).map (fun out => c :: out)

/-- Model of `fmt.Sprintf`. -/
def Sprintf (format : String) (a : List Arg) : Option String :=
  (doPrintf format.data a).map String.mk

/-- Value of a sequence of decimal digits, read most significant digit first. -/
def decimalValue (s : List Char) : Nat :=
  s.foldl (fun acc c => 10 * acc + (c.toNat - 48)) 0

/-- Signed decimal reading of a string: an optional leading `-` followed by digits. -/
def parseDecimal (s : String) : Int :=
  match s.data with
  | '-' :: ds => - (decimalValue ds : Int)
  | ds => (decimalValue ds : Int)

end Fmt

namespace NvidiaGPU

open Fmt

/-- The constant `kubeletEndpoint`. -/
def kubeletEndpoint : String := "kubelet.sock"

/-- The constant `pluginEndpointPrefix`. -/
def pluginEndpointPrefix : String := "nvidiaGPU"

/-- Third argument of `ngm.Serve` in `main`:
`fmt.Sprintf("%s-%d.sock", pluginEndpointPrefix, time.Now().Unix())`, where `now` is
the value returned by `time.Now().Unix()`. -/
def pluginSocketName (now : Int) : Option String :=
  Sprintf "%s-%d.sock" [Arg.str pluginEndpointPrefix, Arg.int64 now]

/-- The constant `time.Second`, a `time.Duration` counted in nanoseconds. -/
def Second : Int := 1000000000

/-- Names of the flags that this file declares with `flag.String`. -/
def declaredFlags : List String := ["host-path", "container-path", "plugin-directory"]

/-- Whether `flag.Parse()` accepts the command line, given as the list of its flag
settings `(name, value)` in the order they appear: every setting must name a defined
flag and carry a value that the flag accepts. The three flags of this file are string
flags and accept every value; `imported name` is `some check` when a package imported
by `main` (glog) defines the flag `name`, and `check` is the test that flag applies to
a value. When the command line is not accepted, `flag.Parse()` terminates the process
(`flag.CommandLine` handles errors with `ExitOnError`). -/
def flagParse (imported : String → Option (String → Bool))
    (commandLine : List (String × String)) : Bool :=
  commandLine.all (fun s =>
    declaredFlags.contains s.1 ||
      match imported s.1 with
      | some check => check s.2
      | none => false)

/-- Value of a flag declared with `flag.String(name, value, usage)` after a successful
`flag.Parse()`: the default `value` unless the command line sets the flag, and the
last setting when it is set more than once. -/
def flagString (name value : String) (commandLine : List (String × String)) : String :=
  match commandLine.reverse.lookup name with
  | some v => v
  | none => value

/-- The flag `-host-path`. -/
def hostPathPrefix (commandLine : List (String × String)) : String :=
  flagString "host-path" "/home/kubernetes/bin/nvidia" commandLine

/-- The flag `-container-path`. -/
def containerPathPrefix (commandLine : List (String × String)) : String :=
  flagString "container-path" "/usr/local/nvidia" commandLine

/-- The flag `-plugin-directory`. -/
def pluginMountPath (commandLine : List (String × String)) : String :=
  flagString "plugin-directory" "/device-plugin" commandLine

/-- What a run of `main` receives from outside: the flags other packages define, the
flag settings of the command line, the result `start k` of the `k`-th call of
`ngm.Start()`, the time `elapsed k` in nanoseconds that passes in the `k`-th loop
iteration beyond the five seconds of its sleep (the call of `Start`, logging, any
delay before the next statement; for `k = 0` also the statements before the loop),
and the wall clock `processStart` at process start, in nanoseconds since the Unix
epoch. The wall clock runs forward and is not adjusted during the run. -/
structure Env where
  imported : String → Option (String → Bool)
  commandLine : List (String × String)
  start : Nat → Option String
  elapsed : Nat → Nat
  processStart : Int

/-- Observable actions of `main`, in program order. `Start` carries the value the call
returned (`none` is a nil error). -/
inductive Event where
  | Infoln (msg : String)
  | NewNvidiaGPUManager (hostPathPrefix containerPathPrefix : String)
  | Start (err : Option String)
  | InfofV3 (format : String) (err : String)
  | Sleep (d : Int)
  | Serve (pluginMountPath kubeletEndpoint pluginEndpoint : String)
deriving Repr, DecidableEq

/-- Where a run of `main` stands when the trace ends: terminated by `flag.Parse()`,
still in the retry loop, or in the call of `Serve`. -/
inductive Phase where
  | exited
  | retrying
  | serving
deriving Repr, DecidableEq

/-- The `for` loop of `main`, from its `k`-th iteration on, run for at most `fuel`
iterations with the wall clock at `clock` (nanoseconds) when the iteration begins;
`start k` is what the `k`-th call of `ngm.Start()` returns, `elapsed k` the time the
iteration takes apart from the sleep, and `time.Sleep(5 * time.Second)` advances the
clock by that duration. The second component is the clock when the loop is left
through `break`, and `none` while the loop is still running. -/
def startLoop (start : Nat → Option String) (elapsed : Nat → Nat) :
    Nat → Nat → Int → List Event × Option Int
  | 0, _, _ => ([], none)
  | fuel + 1, k, clock =>
    match start k with
    | none => ([Event.Start none], some (clock + elapsed k))
    | some err =>
      let r := startLoop start elapsed fuel (k + 1) (clock + elapsed k + 5 * Second)
      (Event.Start (some err)
        :: Event.InfofV3 "nvidiaGPUManager.Start() failed: %v" err
        :: Event.Sleep (5 * Second) :: r.1, r.2)

/-- The function `main`, run for at most `fuel` iterations of its retry loop. When
`flag.Parse()` rejects the command line the process exits before anything else
happens. Otherwise the manager is constructed from the flags and the loop runs from
the clock `processStart`; when it is left, `time.Now().Unix()` is the clock of that
moment in whole seconds and the socket name is formatted from it. The result is `none`
only if the socket name cannot be formatted within the modelled fragment of
`fmt.Sprintf`. -/
def main (env : Env) (fuel : Nat) : Option (List Event × Phase) :=
  if flagParse env.imported env.commandLine then
    let init := [Event.Infoln "device-plugin started",
      Event.NewNvidiaGPUManager (hostPathPrefix env.commandLine)
        (containerPathPrefix env.commandLine)]
    let loop := startLoop env.start env.elapsed fuel 0 env.processStart
    match loop.2 with
    | some clock =>
      (pluginSocketName (clock / Second)).map (fun name =>
        (init ++ loop.1
          ++ [Event.Serve (pluginMountPath env.commandLine) kubeletEndpoint name],
          Phase.serving))
    | none => some (init ++ loop.1, Phase.retrying)
  else some ([], Phase.exited)

/-- The wall clock (nanoseconds) at which the loop is left when it is entered at
`clock` with iteration `k` and exactly the next `n` calls of `Start` fail. -/
def breakClock (elapsed : Nat → Nat) : Nat → Nat → Int → Int
  | k, 0, clock => clock + elapsed k
  | k, n + 1, clock => breakClock elapsed (k + 1) n (clock + elapsed k + 5 * Second)

/-- The value `time.Now().Unix()` returns to `main` when the first `n` calls of `Start`
fail and the next one succeeds. -/
def serveTime (env : Env) (n : Nat) : Int :=
  breakClock env.elapsed 0 n env.processStart / Second

/-- A run for examples: no flag of another package, an empty command line, a process
started `startSeconds` seconds after the Unix epoch, the first `failures` calls of
`Start` failing and the next one succeeding, and no time passing apart from the
sleeps. -/
def exampleEnv (startSeconds : Int) (failures : Nat) : Env where
  imported := fun _ => none
  commandLine := []
  start := fun k => if k < failures then some "no devices" else none
  elapsed := fun _ => 0
  processStart := startSeconds * Second

/-- The three events of one loop iteration whose `ngm.Start()` returned `r`, when `r`
is an error: the call, the log line and the sleep. -/
def failedAttempt (r : Option String) : List Event :=
  match r with
  | some err =>
    [Event.Start (some err), Event.InfofV3 "nvidiaGPUManager.Start() failed: %v" err,
      Event.Sleep (5 * Second)]
  | none => []

/-- The events of the first `n` loop iterations when each of them fails. -/
def failedAttempts (start : Nat → Option String) (k n : Nat) : List Event :=
  ((List.range n).map (fun j => failedAttempt (start (k + j)))).flatten

/-- Results of the `ngm.Start()` calls recorded in a trace, in call order. -/
def startResults (tr : List Event) : List (Option String) :=
  tr.filterMap (fun e => match e with
    | Event.Start r => some r
    | _ => none)

/-- Durations of the `time.Sleep` calls recorded in a trace, in call order. -/
def sleeps (tr : List Event) : List Int :=
  tr.filterMap (fun e => match e with
    | Event.Sleep d => some d
    | _ => none)

/-- Arguments of the `ngm.Serve` calls recorded in a trace, in call order. -/
def serveCalls (tr : List Event) : List (String × String × String) :=
  tr.filterMap (fun e => match e with
    | Event.Serve d k s => some (d, k, s)
    | _ => none)

end NvidiaGPU

namespace Allocation

/-- Health of a device (spec, data model). -/
inductive Health where
  | Healthy
  | Unhealthy
deriving Repr, DecidableEq

/-- A device of the inventory (spec, data model). -/
structure Device where
  id : String
  health : Health
deriving Repr, DecidableEq

/-- One device node exposed to the container. -/
structure DeviceSpec where
  hostPath : String
  containerPath : String
  permissions : String
deriving Repr, DecidableEq

/-- One bind mount of the container. -/
structure Mount where
  hostPath : String
  containerPath : String
  readOnly : Bool
deriving Repr, DecidableEq

/-- The allocation response (spec, data model). -/
structure AllocationResponse where
  deviceSpecs : List DeviceSpec
  mounts : List Mount
  envVars : List (String × String)
deriving Repr, DecidableEq

/-- Error kinds of the allocation resolver (spec, error taxonomy). -/
inductive AllocError where
  | UnknownDevice
  | UnhealthyDevice
deriving Repr, DecidableEq

/-- What the resolver is configured with at process start: how a device id maps to its
device node, the fixed driver mounts and the environment variables. -/
structure Config where
  deviceNode : String → DeviceSpec
  driverMounts : List Mount
  envVars : List (String × String)

/-- The entry of the inventory snapshot keyed by `id`, if any. -/
def lookup (inventory : List Device) (id : String) : Option Device :=
  inventory.find? (fun d => d.id = id)

/-- Modelled from the spec: the allocation resolver `resolve` of the manager package
`pkg/gpu/nvidia`, which is not among the source files. Following the contract of the
spec, it fails with `UnknownDevice` if any requested id is absent from the inventory,
fails with `UnhealthyDevice` if any requested id is Unhealthy, and otherwise answers
with one device node per requested id, the fixed driver mounts and the environment
variables. -/
def resolve (cfg : Config) (requestedIds : List String) (inventory : List Device) :
    Except AllocError AllocationResponse :=
  if requestedIds.any (fun id => (lookup inventory id).isNone) then
    Except.error AllocError.UnknownDevice
  else if requestedIds.any (fun id =>
      (lookup inventory id).any (fun d => d.health = Health.Unhealthy)) then
    Except.error AllocError.UnhealthyDevice
  else
    Except.ok
      { deviceSpecs := requestedIds.map cfg.deviceNode
        mounts := cfg.driverMounts
        envVars := cfg.envVars }

end Allocation

namespace Token

/-- The type `schema.GroupVersionKind`. -/
structure GroupVersionKind where
  Group : String
  Version : String
  Kind : String
deriving Repr, DecidableEq

/-- The type `schema.GroupResource`. -/
structure GroupResource where
  Group : String
  Resource : String
deriving Repr, DecidableEq

/-- Operands of an unevaluated `fmt.Errorf` call. -/
inductive Operand (E : Type) where
  | str (s : String)
  | err (e : E)

/-- Go `error` values. The three constructors named after library calls stand for the
values those calls of `Create` build; `other` is any other error a collaborator returns
(collaborators may also return the first three). -/
inductive Error where
  | NewBadRequest (reason : String)
  | NewConflict (qualifiedResource : GroupResource) (name : String) (err : Error)
  | Errorf (format : String) (a : List (Operand Error))
  | other (message : String)

/-- The test `errors.IsBadRequest`. -/
def IsBadRequest : Error → Bool
  | Error.NewBadRequest _ => true
  | _ => false

/-- The test `errors.IsConflict`. -/
def IsConflict : Error → Bool
  | Error.NewConflict _ _ _ => true
  | _ => false

/-- The field `ObjectMeta` as far as `Create` reads it. -/
structure ObjectMeta where
  Name : String
  Namespace : String
  UID : String
deriving Repr, DecidableEq

/-- The type `api.ServiceAccount`. -/
structure ServiceAccount where
  meta : ObjectMeta
deriving Repr, DecidableEq

/-- The type `api.Pod`. -/
structure Pod where
  meta : ObjectMeta
deriving Repr, DecidableEq

/-- The type `api.Secret`. -/
structure Secret where
  meta : ObjectMeta
deriving Repr, DecidableEq

/-- The type `authenticationapi.BoundObjectReference`. -/
structure BoundObjectReference where
  Kind : String
  APIVersion : String
  Name : String
  UID : String
deriving Repr, DecidableEq

/-- The type `authenticationapi.TokenRequestSpec`. -/
structure TokenRequestSpec where
  Audiences : List String
  ExpirationSeconds : Int
  BoundObjectRef : Option BoundObjectReference
deriving Repr, DecidableEq

/-- The type `authenticationapi.TokenRequestStatus`; the time stamp is kept as the
Unix time of `metav1.Time`. -/
structure TokenRequestStatus where
  Token : String
  ExpirationTimestamp : Int
deriving Repr, DecidableEq

/-- The type `authenticationapi.TokenRequest`. -/
structure TokenRequest where
  Spec : TokenRequestSpec
  Status : TokenRequestStatus
deriving Repr, DecidableEq

/-- Dynamic types a `runtime.Object` can have here. -/
inductive Object where
  | tokenRequest (t : TokenRequest)
  | serviceAccount (s : ServiceAccount)
  | pod (p : Pod)
  | secret (s : Secret)
deriving Repr, DecidableEq

/-- The public claims `jwt.Claims` as far as `Create` reads them: `Expiry` is the
Unix time `sc.Expiry.Time()`; `rest` stands for the remaining fields. -/
structure Claims where
  Expiry : Int
  rest : List String
deriving Repr, DecidableEq

/-- Calls `Create` makes on its collaborators, in program order. -/
inductive Call (PC : Type) where
  | createValidation (obj : Object)
  | svcacctsGet (name : String)
  | podsGet (name : String)
  | secretsGet (name : String)
  | Claims (sa : ServiceAccount) (pod : Option Pod) (secret : Option Secret)
      (expirationSeconds : Int) (audiences : List String)
  | GenerateToken (sc : Claims) (pc : PC)

/-- The receiver `TokenREST` with its fields, together with the functions of other
packages that `Create` calls: `createValidation` is the argument of that name, the
getters are taken at the request context, `Claims` is `token.Claims`, and
`FromAPIVersionAndKind` and `gvkString` are `schema.FromAPIVersionAndKind` and
`GroupVersionKind.String`. `PC` is the type of the private claims. -/
structure TokenREST (PC : Type) where
  createValidation : Object → Option Error
  svcaccts : String → Except Error Object
  pods : String → Except Error Object
  secrets : String → Except Error Object
  issuer : Claims → PC → Except Error String
  Claims : ServiceAccount → Option Pod → Option Secret → Int → List String → Claims × PC
  FromAPIVersionAndKind : String → String → GroupVersionKind
  gvkString : GroupVersionKind → String

/-- How a call of `Create` ends: it returns `(obj, err)` or a type assertion panics. -/
inductive Outcome where
  | returned (obj : Option Object) (err : Option Error)
  | panicked

/-- Result of running `Create`: the collaborator calls made, the request object as it
is left in memory (the caller's `obj` points to it) and the outcome. -/
structure Run (PC : Type) where
  calls : List (Call PC)
  request : Object
  outcome : Outcome

/-- Lines 92 to 102 of `Create`: build the claims, generate the token and, on success,
write `out.Status` and return `out`. `calls` are the calls made so far. -/
def issue {PC : Type} (r : TokenREST PC) (calls : List (Call PC)) (out : TokenRequest)
    (svcacct : ServiceAccount) (pod : Option Pod) (secret : Option Secret) : Run PC :=
  let scpc := r.Claims svcacct pod secret out.Spec.ExpirationSeconds out.Spec.Audiences
  let calls1 := calls ++
    [Call.Claims svcacct pod secret out.Spec.ExpirationSeconds out.Spec.Audiences,
     Call.GenerateToken scpc.1 scpc.2]
  match r.issuer scpc.1 scpc.2 with
  | Except.error err =>
    { calls := calls1, request := Object.tokenRequest out,
      outcome := Outcome.returned none
        (some (Error.Errorf "failed to generate token: %v" [Operand.err err])) }
  | Except.ok tokdata =>
    let out1 : TokenRequest :=
      { out with Status := { Token := tokdata, ExpirationTimestamp := scpc.1.Expiry } }
    { calls := calls1, request := Object.tokenRequest out1,
      outcome := Outcome.returned (some (Object.tokenRequest out1)) none }

/-- Line 88 to 90 of `Create`, then the tail `issue`: the UID check of a bound object
whose UID in record is `uid`. -/
def checkUID {PC : Type} (r : TokenREST PC) (calls : List (Call PC)) (out : TokenRequest)
    (svcacct : ServiceAccount) (ref : BoundObjectReference) (gvk : GroupVersionKind)
    (pod : Option Pod) (secret : Option Secret) (uid : String) : Run PC :=
  if ref.UID ≠ "" ∧ uid ≠ ref.UID then
    { calls := calls, request := Object.tokenRequest out,
      outcome := Outcome.returned none
        (some (Error.NewConflict { Group := gvk.Group, Resource := gvk.Kind } ref.Name
          (Error.Errorf
            "the UID in the bound object reference (%s) does not match the UID in record (%s). The object might have been deleted and then recreated"
            [Operand.str ref.UID, Operand.str uid]))) }
  else issue r calls out svcacct pod secret

/-- The method `TokenREST.Create`; `name` is the service account name and `obj` the
object to create. The arguments `ctx` and `includeUninitialized` do not influence the
control flow and are left out. -/
def Create {PC : Type} (r : TokenREST PC) (name : String) (obj : Object) : Run PC :=
  match r.createValidation obj with
  | some err =>
    { calls := [Call.createValidation obj], request := obj,
      outcome := Outcome.returned none (some err) }
  | none =>
  match obj with
  | Object.tokenRequest out =>
    let calls0 : List (Call PC) := [Call.createValidation obj, Call.svcacctsGet name]
    match r.svcaccts name with
    | Except.error err =>
      { calls := calls0, request := obj, outcome := Outcome.returned none (some err) }
    | Except.ok (Object.serviceAccount svcacct) =>
      match out.Spec.BoundObjectRef with
      | some ref =>
        let gvk := r.FromAPIVersionAndKind ref.APIVersion ref.Kind
        if gvk.Group = "" ∧ gvk.Kind = "Pod" then
          match r.pods ref.Name with
          | Except.error err =>
            { calls := calls0 ++ [Call.podsGet ref.Name], request := obj,
              outcome := Outcome.returned none (some err) }
          | Except.ok (Object.pod pod) =>
            checkUID r (calls0 ++ [Call.podsGet ref.Name]) out svcacct ref gvk
              (some pod) none pod.meta.UID
          | Except.ok _ =>
            { calls := calls0 ++ [Call.podsGet ref.Name], request := obj,
              outcome := Outcome.panicked }
        else if gvk.Group = "" ∧ gvk.Kind = "Secret" then
          match r.secrets ref.Name with
          | Except.error err =>
            { calls := calls0 ++ [Call.secretsGet ref.Name], request := obj,
              outcome := Outcome.returned none (some err) }
          | Except.ok (Object.secret secret) =>
            checkUID r (calls0 ++ [Call.secretsGet ref.Name]) out svcacct ref gvk
              none (some secret) secret.meta.UID
          | Except.ok _ =>
            { calls := calls0 ++ [Call.secretsGet ref.Name], request := obj,
              outcome := Outcome.panicked }
        else
          { calls := calls0, request := obj,
            outcome := Outcome.returned none
              (some (Error.NewBadRequest
                ("cannot bind token to object of type " ++ r.gvkString gvk))) }
      | none => issue r calls0 out svcacct none none
    | Except.ok _ =>
      { calls := calls0, request := obj, outcome := Outcome.panicked }
  | _ =>
    { calls := [Call.createValidation obj], request := obj, outcome := Outcome.panicked }

/-- Atomicity of a run `R` on the request object `obj`: an error return carries a nil
object and leaves `obj` as it was, a panic leaves it as it was, and a successful return
hands back `obj` with only `Status` rewritten, to the generated token and the expiry of
the claims computed for some service account, pod and secret. -/
def AtomicRun {PC : Type} (r : TokenREST PC) (obj : Object) (R : Run PC) : Prop :=
  (∀ o e, R.outcome = Outcome.returned o (some e) → o = none ∧ R.request = obj) ∧
  (R.outcome = Outcome.panicked → R.request = obj) ∧
  (∀ o, R.outcome = Outcome.returned o none →
    ∃ out svcacct pod secret tokdata,
      obj = Object.tokenRequest out ∧
      r.issuer
          (r.Claims svcacct pod secret out.Spec.ExpirationSeconds out.Spec.Audiences).1
          (r.Claims svcacct pod secret out.Spec.ExpirationSeconds out.Spec.Audiences).2
        = Except.ok tokdata ∧
      R.request = Object.tokenRequest
        { Spec := out.Spec,
          Status :=
            { Token := tokdata,
              ExpirationTimestamp :=
                (r.Claims svcacct pod secret out.Spec.ExpirationSeconds
                  out.Spec.Audiences).1.Expiry } } ∧
      o = some R.request)

/-- A concrete receiver for examples: validation accepts, every getter finds an object
whose UID is `uid-1`, the API version is parsed into the empty group, and the issuer
returns the token `tok`. -/
def exampleREST : TokenREST Unit where
  createValidation := fun _ => none
  svcaccts := fun n => Except.ok (Object.serviceAccount ⟨⟨n, "ns", "uid-0"⟩⟩)
  pods := fun n => Except.ok (Object.pod ⟨⟨n, "ns", "uid-1"⟩⟩)
  secrets := fun n => Except.ok (Object.secret ⟨⟨n, "ns", "uid-1"⟩⟩)
  issuer := fun _ _ => Except.ok "tok"
  Claims := fun _ _ _ exp aud => (⟨exp, aud⟩, ())
  FromAPIVersionAndKind := fun v k => ⟨"", v, k⟩
  gvkString := fun gvk => gvk.Group ++ "/" ++ gvk.Version ++ ", Kind=" ++ gvk.Kind

/-- A concrete token request bound to an object of kind `kind` with UID `uid`, with
an empty status. -/
def exampleRequest (kind uid : String) : TokenRequest where
  Spec :=
    { Audiences := ["api"], ExpirationSeconds := 3600,
      BoundObjectRef := some { Kind := kind, APIVersion := "v1", Name := "obj", UID := uid } }
  Status := { Token := "", ExpirationTimestamp := 0 }

end Token

/-! ## Decimal rendering -/

namespace Fmt

theorem digitChar_toNat_sub (d : Nat) (h : d < 10) : (Nat.digitChar d).toNat - 48 = d := by
  interval_cases d <;> rfl

theorem digitChar_ne_slash (d : Nat) (h : d < 10) : Nat.digitChar d ≠ '/' := by
  interval_cases d <;> decide

theorem digitChar_ne_minus (d : Nat) (h : d < 10) : Nat.digitChar d ≠ '-' := by
  interval_cases d <;> decide

theorem decimalValue_snoc (s : List Char) (c : Char) :
    decimalValue (s ++ [c]) = 10 * decimalValue s + (c.toNat - 48) := by
  simp [decimalValue, List.foldl_append]

theorem formatBits_lt (u : Nat) (h : u < 10) : formatBits u = [Nat.digitChar u] := by
  rw [formatBits, if_pos h]

theorem formatBits_ge (u : Nat) (h : ¬ u < 10) :
    formatBits u = formatBits (u / 10) ++ [Nat.digitChar (u % 10)] := by
  rw [formatBits, if_neg h]

/-- Reading the digits produced by `formatBits` gives the number back. -/
theorem decimalValue_formatBits (u : Nat) : decimalValue (formatBits u) = u := by
  induction u using Nat.strong_induction_on with
  | _ u ih =>
    by_cases h : u < 10
    · rw [formatBits_lt u h]
      simp [decimalValue, digitChar_toNat_sub u h]
    · rw [formatBits_ge u h, decimalValue_snoc, ih (u / 10) (by omega),
        digitChar_toNat_sub (u % 10) (by omega)]
      omega

/-- Every character produced by `formatBits` is a decimal digit. -/
theorem formatBits_digits (u : Nat) :
    ∀ c ∈ formatBits u, ∃ d, d < 10 ∧ c = Nat.digitChar d := by
  induction u using Nat.strong_induction_on with
  | _ u ih =>
    intro c hc
    by_cases h : u < 10
    · rw [formatBits_lt u h] at hc
      exact ⟨u, h, by simpa using hc⟩
    · rw [formatBits_ge u h, List.mem_append] at hc
      rcases hc with hc | hc
      · exact ih (u / 10) (by omega) c hc
      · exact ⟨u % 10, by omega, by simpa using hc⟩

theorem formatBits_no_slash (u : Nat) : '/' ∉ formatBits u := by
  intro hc
  obtain ⟨d, hd, e⟩ := formatBits_digits u _ hc
  exact digitChar_ne_slash d hd e.symm

theorem formatBits_no_minus (u : Nat) : '-' ∉ formatBits u := by
  intro hc
  obtain ⟨d, hd, e⟩ := formatBits_digits u _ hc
  exact digitChar_ne_minus d hd e.symm

theorem parseDecimal_mk_digits (l : List Char) (h : '-' ∉ l) :
    parseDecimal (String.mk l) = (decimalValue l : Int) := by
  unfold parseDecimal
  split
  · rename_i ds heq
    simp only at heq
    exact absurd (by rw [heq]; exact List.mem_cons_self _ _) h
  · rfl

theorem parseDecimal_mk_minus (l : List Char) :
    parseDecimal (String.mk ('-' :: l)) = - (decimalValue l : Int) := by
  simp [parseDecimal]

/-- Reading the output of `FormatInt` gives the `int64` operand back. -/
theorem parseDecimal_FormatInt (i : Int) (hlo : -2 ^ 63 ≤ i) (hhi : i < 2 ^ 63) :
    parseDecimal (FormatInt i) = i := by
  unfold FormatInt
  split
  · rw [parseDecimal_mk_minus, decimalValue_formatBits]
    omega
  · rw [parseDecimal_mk_digits _ (formatBits_no_minus _), decimalValue_formatBits]
    omega

theorem FormatInt_no_slash (i : Int) : '/' ∉ (FormatInt i).data := by
  unfold FormatInt
  split
  · simp only [List.mem_cons, not_or]
    exact ⟨by decide, formatBits_no_slash _⟩
  · exact formatBits_no_slash _

end Fmt

/-! ## The retry loop of `main` -/

namespace NvidiaGPU

open Fmt

theorem failedAttempts_zero (start : Nat → Option String) (k : Nat) :
    failedAttempts start k 0 = [] := by
  simp [failedAttempts]

theorem failedAttempts_succ (start : Nat → Option String) (k n : Nat) :
    failedAttempts start k (n + 1)
      = failedAttempt (start k) ++ failedAttempts start (k + 1) n := by
  simp [failedAttempts, List.range_succ_eq_map, List.map_map, Function.comp_def,
    Nat.add_assoc, Nat.add_comm 1]

/-- The loop is left through `break` at the first call of `Start` that returns nil,
with the clock advanced by the iterations and the sleeps. -/
theorem startLoop_break (start : Nat → Option String) (elapsed : Nat → Nat) :
    ∀ (n k fuel : Nat) (clock : Int), (∀ j, j < n → start (k + j) ≠ none) →
      start (k + n) = none → n < fuel →
      startLoop start elapsed fuel k clock
        = (failedAttempts start k n ++ [Event.Start none],
            some (breakClock elapsed k n clock)) := by
  intro n
  induction n with
  | zero =>
    intro k fuel clock _ hn hf
    obtain ⟨f, rfl⟩ : ∃ f, fuel = f + 1 := ⟨fuel - 1, by omega⟩
    have hk : start k = none := by simpa using hn
    simp [startLoop, hk, failedAttempts_zero, breakClock]
  | succ n ih =>
    intro k fuel clock hfail hn hf
    obtain ⟨f, rfl⟩ : ∃ f, fuel = f + 1 := ⟨fuel - 1, by omega⟩
    have h0 : start k ≠ none := by simpa using hfail 0 (by omega)
    obtain ⟨err, herr⟩ := Option.ne_none_iff_exists'.mp h0
    have hrec := ih (k + 1) f (clock + elapsed k + 5 * Second)
      (fun j hj => by
        have := hfail (j + 1) (by omega)
        rwa [show k + (j + 1) = k + 1 + j by omega] at this)
      (by rwa [show k + (n + 1) = k + 1 + n by omega] at hn)
      (by omega)
    simp [startLoop, herr, hrec, failedAttempts_succ, failedAttempt, breakClock]

/-- While every call of `Start` fails the loop keeps iterating. -/
theorem startLoop_retry (start : Nat → Option String) (elapsed : Nat → Nat) :
    ∀ (fuel k : Nat) (clock : Int), (∀ j, j < fuel → start (k + j) ≠ none) →
      startLoop start elapsed fuel k clock = (failedAttempts start k fuel, none) := by
  intro fuel
  induction fuel with
  | zero =>
    intro k clock _
    simp [startLoop, failedAttempts_zero]
  | succ f ih =>
    intro k clock hfail
    have h0 : start k ≠ none := by simpa using hfail 0 (by omega)
    obtain ⟨err, herr⟩ := Option.ne_none_iff_exists'.mp h0
    have hrec := ih (k + 1) (clock + elapsed k + 5 * Second)
      (fun j hj => by
        have := hfail (j + 1) (by omega)
        rwa [show k + (j + 1) = k + 1 + j by omega] at this)
    simp [startLoop, herr, hrec, failedAttempts_succ, failedAttempt]

/-- Each failed iteration puts at least its five seconds of sleep between the clock at
which the loop is entered and the clock at which it is left. -/
theorem breakClock_ge (elapsed : Nat → Nat) :
    ∀ (n k : Nat) (clock : Int), clock + (n : Int) * (5 * Second) ≤ breakClock elapsed k n clock := by
  intro n
  induction n with
  | zero =>
    intro k clock
    simp [breakClock]
  | succ n ih =>
    intro k clock
    have h := ih (k + 1) (clock + elapsed k + 5 * Second)
    simp only [breakClock]
    have he : (0 : Int) ≤ (elapsed k : Int) := Int.ofNat_nonneg _
    have hs : ((n + 1 : Nat) : Int) * (5 * Second) = (n : Int) * (5 * Second) + 5 * Second := by
      push_cast
      ring
    rw [hs]
    linarith

/-- The time stamp read after `n` failed calls of `Start` is at least `5 * n` seconds
after the time stamp of process start. -/
theorem serveTime_ge (env : Env) (n : Nat) :
    env.processStart / Second + 5 * (n : Int) ≤ serveTime env n := by
  have h := breakClock_ge env.elapsed n 0 env.processStart
  have hpos : (0 : Int) < Second := by decide
  have hdiv := Int.ediv_le_ediv hpos h
  have hsplit : (env.processStart + (n : Int) * (5 * Second)) / Second
      = env.processStart / Second + 5 * (n : Int) := by
    rw [show (n : Int) * (5 * Second) = (5 * (n : Int)) * Second by ring]
    exact Int.add_mul_ediv_right _ _ (by decide)
  rw [hsplit] at hdiv
  exact hdiv

theorem serveCalls_append (a b : List Event) :
    serveCalls (a ++ b) = serveCalls a ++ serveCalls b := by
  simp [serveCalls, List.filterMap_append]

theorem startResults_append (a b : List Event) :
    startResults (a ++ b) = startResults a ++ startResults b := by
  simp [startResults, List.filterMap_append]

theorem sleeps_append (a b : List Event) : sleeps (a ++ b) = sleeps a ++ sleeps b := by
  simp [sleeps, List.filterMap_append]

theorem serveCalls_failedAttempts (start : Nat → Option String) :
    ∀ (n k : Nat), serveCalls (failedAttempts start k n) = [] := by
  intro n
  induction n with
  | zero => intro k; simp [failedAttempts_zero, serveCalls]
  | succ n ih =>
    intro k
    rw [failedAttempts_succ, serveCalls_append, ih (k + 1)]
    cases start k <;> simp [failedAttempt, serveCalls]

theorem startResults_failedAttempts (start : Nat → Option String) :
    ∀ (n k : Nat), (∀ j, j < n → start (k + j) ≠ none) →
      startResults (failedAttempts start k n) = (List.range n).map (fun j => start (k + j)) := by
  intro n
  induction n with
  | zero => intro k _; simp [failedAttempts_zero, startResults]
  | succ n ih =>
    intro k hfail
    have h0 : start k ≠ none := by simpa using hfail 0 (by omega)
    obtain ⟨err, herr⟩ := Option.ne_none_iff_exists'.mp h0
    have hrec := ih (k + 1)
      (fun j hj => by
        have := hfail (j + 1) (by omega)
        rwa [show k + (j + 1) = k + 1 + j by omega] at this)
    rw [failedAttempts_succ, startResults_append, hrec, herr]
    simp [failedAttempt, startResults, List.range_succ_eq_map, List.map_map,
      Function.comp_def, herr, Nat.add_assoc, Nat.add_comm 1]

theorem sleeps_failedAttempts (start : Nat → Option String) :
    ∀ (n k : Nat), (∀ j, j < n → start (k + j) ≠ none) →
      sleeps (failedAttempts start k n) = List.replicate n (5 * Second) := by
  intro n
  induction n with
  | zero => intro k _; simp [failedAttempts_zero, sleeps]
  | succ n ih =>
    intro k hfail
    have h0 : start k ≠ none := by simpa using hfail 0 (by omega)
    obtain ⟨err, herr⟩ := Option.ne_none_iff_exists'.mp h0
    have hrec := ih (k + 1)
      (fun j hj => by
        have := hfail (j + 1) (by omega)
        rwa [show k + (j + 1) = k + 1 + j by omega] at this)
    rw [failedAttempts_succ, sleeps_append, hrec, herr]
    simp [failedAttempt, sleeps, List.replicate_succ]

/-- In a trace whose last event is the only `Serve`, a `Serve` can only be split off
at the end. -/
theorem serve_at_end (l : List Event) (x : Event) (hl : serveCalls l = []) :
    ∀ (pre post : List Event) (d k s : String),
      l ++ [x] = pre ++ Event.Serve d k s :: post → post = [] ∧ pre = l := by
  induction l with
  | nil =>
    intro pre post d k s h
    cases pre with
    | nil => simp at h; simp [h.2]
    | cons a pre' => simp at h
  | cons e l ih =>
    intro pre post d k s h
    cases pre with
    | nil =>
      simp only [List.cons_append, List.nil_append, List.cons.injEq] at h
      rw [h.1] at hl
      simp [serveCalls] at hl
    | cons a pre' =>
      simp only [List.cons_append, List.cons.injEq] at h
      have hl' : serveCalls l = [] := by
        have := hl
        rw [show e :: l = [e] ++ l from rfl, serveCalls_append] at this
        exact (List.append_eq_nil.mp this).2
      obtain ⟨h1, h2⟩ := ih hl' pre' post d k s h.2
      exact ⟨h1, by rw [h.1, h2]⟩

/-- The socket name is formatted within the modelled fragment of `Sprintf`. -/
theorem pluginSocketName_eq (now : Int) :
    pluginSocketName now = some ("nvidiaGPU-" ++ FormatInt now ++ ".sock") := by
  simp [pluginSocketName, Sprintf, doPrintf, pluginEndpointPrefix]
  rfl

/-- The trace of `main` when the command line is accepted and the first nil result of
`Start` is the `(n+1)`-th. -/
theorem main_serving (env : Env) (n fuel : Nat)
    (hparse : flagParse env.imported env.commandLine = true)
    (hfail : ∀ j, j < n → env.start j ≠ none)
    (hn : env.start n = none) (hf : n < fuel) :
    main env fuel = some
      ([Event.Infoln "device-plugin started",
        Event.NewNvidiaGPUManager (hostPathPrefix env.commandLine)
          (containerPathPrefix env.commandLine)]
        ++ failedAttempts env.start 0 n
        ++ [Event.Start none]
        ++ [Event.Serve (pluginMountPath env.commandLine) kubeletEndpoint
            ("nvidiaGPU-" ++ FormatInt (serveTime env n) ++ ".sock")], Phase.serving) := by
  have h := startLoop_break env.start env.elapsed n 0 fuel env.processStart
    (by simpa using hfail) (by simpa using hn) hf
  simp [main, hparse, h, pluginSocketName_eq, serveTime]

/-- The trace of `main` when the command line is accepted, while every call of `Start`
fails. -/
theorem main_retrying (env : Env) (fuel : Nat)
    (hparse : flagParse env.imported env.commandLine = true)
    (hfail : ∀ j, j < fuel → env.start j ≠ none) :
    main env fuel = some
      ([Event.Infoln "device-plugin started",
        Event.NewNvidiaGPUManager (hostPathPrefix env.commandLine)
          (containerPathPrefix env.commandLine)]
        ++ failedAttempts env.start 0 fuel, Phase.retrying) := by
  have h := startLoop_retry env.start env.elapsed fuel 0 env.processStart
    (by simpa using hfail)
  simp [main, hparse, h]

/-- When `flag.Parse()` rejects the command line nothing else happens. -/
theorem main_exited (env : Env) (fuel : Nat)
    (hparse : flagParse env.imported env.commandLine = false) :
    main env fuel = some ([], Phase.exited) := by
  simp [main, hparse]

/-- Within `fuel` iterations either every call of `Start` fails or there is a first
call returning nil. -/
theorem first_success (start : Nat → Option String) (fuel : Nat) :
    (∀ j, j < fuel → start j ≠ none) ∨
      ∃ n, n < fuel ∧ start n = none ∧ ∀ j, j < n → start j ≠ none := by
  by_cases h : ∃ n, n < fuel ∧ start n = none
  · right
    classical
    refine ⟨Nat.find h, (Nat.find_spec h).1, (Nat.find_spec h).2, ?_⟩
    intro j hj hnone
    exact Nat.find_min h hj ⟨by have := (Nat.find_spec h).1; omega, hnone⟩
  · left
    intro j hj hnone
    exact h ⟨j, hj, hnone⟩

/-- What follows a call of `Start` in the events of `n` failed iterations continued by
`rest`: the log line and the sleep after a failure, and what `rest` says otherwise. -/
theorem after_start (start : Nat → Option String) (rest : List Event)
    (Q : Option String → List Event → Prop)
    (hQ : ∀ e post, Q (some e)
      (Event.InfofV3 "nvidiaGPUManager.Start() failed: %v" e
        :: Event.Sleep (5 * Second) :: post))
    (hrest : ∀ pre post r, rest = pre ++ Event.Start r :: post → Q r post) :
    ∀ (n k : Nat) (pre post : List Event) (r : Option String),
      failedAttempts start k n ++ rest = pre ++ Event.Start r :: post → Q r post := by
  intro n
  induction n with
  | zero =>
    intro k pre post r h
    rw [failedAttempts_zero, List.nil_append] at h
    exact hrest pre post r h
  | succ n ih =>
    intro k pre post r h
    rw [failedAttempts_succ, List.append_assoc] at h
    cases hk : start k with
    | none =>
      rw [hk] at h
      exact ih (k + 1) pre post r (by simpa [failedAttempt] using h)
    | some err =>
      rw [hk] at h
      simp only [failedAttempt, List.cons_append, List.nil_append] at h
      cases pre with
      | nil =>
        simp only [List.nil_append, List.cons.injEq, Event.Start.injEq] at h
        rw [← h.1, ← h.2]
        exact hQ err _
      | cons a pre1 =>
        cases pre1 with
        | nil => simp at h
        | cons b pre2 =>
          cases pre2 with
          | nil => simp at h
          | cons c pre3 =>
            simp only [List.cons_append, List.cons.injEq] at h
            exact ih (k + 1) pre3 post r h.2.2.2

end NvidiaGPU

/-! ## Properties of the entry point -/

namespace NvidiaGPU

open Fmt

/-- The `Serve` events of a run of `main` carry the plugin directory flag, the constant
`kubeletEndpoint` and the socket name formatted from the time stamp read when the loop
was left. -/
theorem main_serve_args (env : Env) (fuel : Nat) (tr : List Event) (ph : Phase)
    (hmain : main env fuel = some (tr, ph)) (d k s : String)
    (hmem : Event.Serve d k s ∈ tr) :
    ∃ n, n < fuel ∧ env.start n = none ∧ (∀ j, j < n → env.start j ≠ none) ∧
      d = pluginMountPath env.commandLine ∧ k = kubeletEndpoint ∧
      s = "nvidiaGPU-" ++ FormatInt (serveTime env n) ++ ".sock" := by
  have hno : ∀ n, Event.Serve d k s ∉ failedAttempts env.start 0 n := by
    intro n hin
    have h := serveCalls_failedAttempts env.start n 0
    have : (d, k, s) ∈ serveCalls (failedAttempts env.start 0 n) := by
      simp only [serveCalls, List.mem_filterMap]
      exact ⟨_, hin, rfl⟩
    rw [h] at this
    simp at this
  cases hparse : flagParse env.imported env.commandLine with
  | false =>
    rw [main_exited env fuel hparse] at hmain
    simp only [Option.some.injEq, Prod.mk.injEq] at hmain
    rw [← hmain.1] at hmem
    simp at hmem
  | true =>
    rcases first_success env.start fuel with hfail | ⟨n, hn, hnone, hfail⟩
    · rw [main_retrying env fuel hparse hfail] at hmain
      simp only [Option.some.injEq, Prod.mk.injEq] at hmain
      rw [← hmain.1] at hmem
      simp only [List.mem_append, List.mem_cons, List.mem_singleton] at hmem
      rcases hmem with (h | h | h) | h
      · cases h
      · cases h
      · simp at h
      · exact absurd h (hno fuel)
    · rw [main_serving env n fuel hparse hfail hnone hn] at hmain
      simp only [Option.some.injEq, Prod.mk.injEq] at hmain
      rw [← hmain.1] at hmem
      simp only [List.mem_append, List.mem_cons, List.mem_singleton] at hmem
      rcases hmem with (((h | h | h) | h) | h) | h
      · cases h
      · cases h
      · simp at h
      · exact absurd h (hno n)
      · rcases h with h | h
        · cases h
        · simp at h
      · rcases h with h | h
        · simp only [Event.Serve.injEq] at h
          exact ⟨n, hn, hnone, hfail, h⟩
        · simp at h

/-- The observations of the trace of a run that reaches `Serve`. -/
theorem main_serving_observed (env : Env) (n fuel : Nat)
    (hparse : flagParse env.imported env.commandLine = true)
    (hfail : ∀ j, j < n → env.start j ≠ none)
    (hn : env.start n = none) (hf : n < fuel) :
    ∃ tr pre, main env fuel = some (tr, Phase.serving) ∧
      startResults tr = (List.range n).map env.start ++ [none] ∧
      serveCalls tr = [(pluginMountPath env.commandLine, kubeletEndpoint,
        "nvidiaGPU-" ++ FormatInt (serveTime env n) ++ ".sock")] ∧
      tr = pre ++ [Event.Start none,
        Event.Serve (pluginMountPath env.commandLine) kubeletEndpoint
          ("nvidiaGPU-" ++ FormatInt (serveTime env n) ++ ".sock")] ∧
      serveCalls pre = [] := by
  refine ⟨_, [Event.Infoln "device-plugin started",
      Event.NewNvidiaGPUManager (hostPathPrefix env.commandLine)
        (containerPathPrefix env.commandLine)] ++ failedAttempts env.start 0 n,
    main_serving env n fuel hparse hfail hn hf, ?_, ?_, ?_, ?_⟩
  · simp only [startResults_append,
      startResults_failedAttempts env.start n 0 (by simpa using hfail)]
    simp [startResults]
  · simp only [serveCalls_append, serveCalls_failedAttempts]
    simp [serveCalls]
  · simp only [List.append_assoc, List.singleton_append]
  · simp only [serveCalls_append, serveCalls_failedAttempts]
    simp [serveCalls]

/-- The observations of the trace of a run that is still retrying. -/
theorem main_retrying_observed (env : Env) (fuel : Nat)
    (hparse : flagParse env.imported env.commandLine = true)
    (hfail : ∀ j, j < fuel → env.start j ≠ none) :
    ∃ tr, main env fuel = some (tr, Phase.retrying) ∧
      serveCalls tr = [] ∧ (startResults tr).length = fuel := by
  refine ⟨_, main_retrying env fuel hparse hfail, ?_, ?_⟩
  · simp only [serveCalls_append, serveCalls_failedAttempts]
    simp [serveCalls]
  · simp only [startResults_append,
      startResults_failedAttempts env.start fuel 0 (by simpa using hfail)]
    simp [startResults]

/-- C1. In `main`, for an arbitrary sequence `start` of results of `ngm.Start()`:
(1) every run produces a trace in which a `Serve` event is the last event and comes
immediately after a `Start` that returned nil; (2) after `n` failing calls of `Start`
the run goes on to a further call of `Start`; (3) if the first nil result is the
`(n+1)`-th, the calls of `Start` are exactly those `n+1` and `Serve` is invoked exactly
once, right after the last of them; (4) if no call of `Start` succeeds the run stays
in the retry loop and `Serve` is never invoked; (5) the process exits only when
`flag.Parse()` rejects the command line, before any call of `Start`, never because a
call of `Start` failed. Parts (2) to (4) are for a command line that `flag.Parse()`
accepts, without which `main` never reaches the loop. -/
theorem main_serve_after_successful_start (env : Env) :
    (∀ fuel, ∃ tr ph, main env fuel = some (tr, ph) ∧
      ∀ pre post d k s, tr = pre ++ Event.Serve d k s :: post →
        post = [] ∧ ∃ pre', pre = pre' ++ [Event.Start none]) ∧
    (flagParse env.imported env.commandLine = true →
      ∀ n, (∀ j, j < n → env.start j ≠ none) → ∀ fuel, n < fuel →
        ∃ tr ph, main env fuel = some (tr, ph) ∧ n + 1 ≤ (startResults tr).length) ∧
    (flagParse env.imported env.commandLine = true →
      ∀ n, (∀ j, j < n → env.start j ≠ none) → env.start n = none → ∀ fuel, n < fuel →
        ∃ tr pre, main env fuel = some (tr, Phase.serving) ∧
          startResults tr = (List.range n).map env.start ++ [none] ∧
          serveCalls tr = [(pluginMountPath env.commandLine, kubeletEndpoint,
            "nvidiaGPU-" ++ FormatInt (serveTime env n) ++ ".sock")] ∧
          tr = pre ++ [Event.Start none,
            Event.Serve (pluginMountPath env.commandLine) kubeletEndpoint
              ("nvidiaGPU-" ++ FormatInt (serveTime env n) ++ ".sock")]) ∧
    (flagParse env.imported env.commandLine = true →
      (∀ j, env.start j ≠ none) → ∀ fuel,
        ∃ tr, main env fuel = some (tr, Phase.retrying) ∧
          serveCalls tr = [] ∧ (startResults tr).length = fuel) ∧
    (∀ fuel tr, main env fuel = some (tr, Phase.exited) →
      flagParse env.imported env.commandLine = false ∧ tr = []) := by
  refine ⟨?_, ?_, ?_, ?_, ?_⟩
  · intro fuel
    cases hparse : flagParse env.imported env.commandLine with
    | false =>
      refine ⟨[], Phase.exited, main_exited env fuel hparse, ?_⟩
      intro pre post d k s h
      simp at h
    | true =>
      rcases first_success env.start fuel with hfail | ⟨n, hn, hnone, hfail⟩
      · obtain ⟨tr, hmain, hserve, _⟩ := main_retrying_observed env fuel hparse hfail
        refine ⟨tr, Phase.retrying, hmain, ?_⟩
        intro pre post d k s h
        rw [h, serveCalls_append] at hserve
        simp [serveCalls] at hserve
      · obtain ⟨tr, pre0, hmain, _, _, htr, hpre0⟩ :=
          main_serving_observed env n fuel hparse hfail hnone hn
        refine ⟨tr, Phase.serving, hmain, ?_⟩
        intro pre post d k s h
        have hl : serveCalls (pre0 ++ [Event.Start none]) = [] := by
          rw [serveCalls_append, hpre0]
          simp [serveCalls]
        have h2 : (pre0 ++ [Event.Start none]) ++
            [Event.Serve (pluginMountPath env.commandLine) kubeletEndpoint
              ("nvidiaGPU-" ++ FormatInt (serveTime env n) ++ ".sock")]
            = pre ++ Event.Serve d k s :: post := by
          rw [← h, htr]
          simp
        obtain ⟨hpost, hpre⟩ := serve_at_end _ _ hl pre post d k s h2
        exact ⟨hpost, pre0, hpre⟩
  · intro hparse n hfail fuel hf
    rcases first_success env.start fuel with hall | ⟨m, hm, hnone, hmfail⟩
    · obtain ⟨tr, hmain, _, hlen⟩ := main_retrying_observed env fuel hparse hall
      exact ⟨tr, Phase.retrying, hmain, by omega⟩
    · obtain ⟨tr, pre0, hmain, hres, _⟩ :=
        main_serving_observed env m fuel hparse hmfail hnone hm
      refine ⟨tr, Phase.serving, hmain, ?_⟩
      have hnm : n ≤ m := by
        by_contra hlt
        exact hfail m (by omega) hnone
      rw [hres]
      simp
      omega
  · intro hparse n hfail hn fuel hf
    obtain ⟨tr, pre0, hmain, hres, hserve, htr, _⟩ :=
      main_serving_observed env n fuel hparse hfail hn hf
    exact ⟨tr, pre0, hmain, hres, hserve, htr⟩
  · intro hparse hfail fuel
    exact main_retrying_observed env fuel hparse (fun j _ => hfail j)
  · intro fuel tr hmain
    cases hparse : flagParse env.imported env.commandLine with
    | false =>
      rw [main_exited env fuel hparse] at hmain
      simp only [Option.some.injEq, Prod.mk.injEq] at hmain
      exact ⟨rfl, hmain.1.symm⟩
    | true =>
      rcases first_success env.start fuel with hfail | ⟨n, hn, hnone, hfail⟩
      · rw [main_retrying env fuel hparse hfail] at hmain
        simp at hmain
      · rw [main_serving env n fuel hparse hfail hnone hn] at hmain
        simp at hmain

/-- Witness for C1: `Start` fails twice and then succeeds. -/
theorem main_serve_after_successful_start_witness :
    ∃ tr pre, main (exampleEnv 17 2) 3 = some (tr, Phase.serving) ∧
      startResults tr = (List.range 2).map (exampleEnv 17 2).start ++ [none] ∧
      serveCalls tr = [(pluginMountPath (exampleEnv 17 2).commandLine, kubeletEndpoint,
        "nvidiaGPU-" ++ FormatInt (serveTime (exampleEnv 17 2) 2) ++ ".sock")] ∧
      tr = pre ++ [Event.Start none,
        Event.Serve (pluginMountPath (exampleEnv 17 2).commandLine) kubeletEndpoint
          ("nvidiaGPU-" ++ FormatInt (serveTime (exampleEnv 17 2) 2) ++ ".sock")] :=
  (main_serve_after_successful_start (exampleEnv 17 2)).2.2.1 rfl 2 (by decide) (by decide)
    3 (by decide)

/-- C5. If the first `n` calls of `ngm.Start()` fail and the `(n+1)`-th succeeds, `main`
(on a command line that `flag.Parse()` accepts) makes exactly `n+1` calls of `Start`
and exactly `n` sleeps, each of `5 * time.Second` (5,000,000,000 ns, in total `n` times
that), whatever the attempt number; the log line and one sleep follow each failed call
and `Serve`, not a sleep, follows the successful one. -/
theorem main_fixed_retry_interval (env : Env) (n fuel : Nat)
    (hparse : flagParse env.imported env.commandLine = true)
    (hfail : ∀ j, j < n → env.start j ≠ none) (hn : env.start n = none) (hf : n < fuel) :
    ∃ tr, main env fuel = some (tr, Phase.serving) ∧
      (startResults tr).length = n + 1 ∧
      sleeps tr = List.replicate n (5 * Second) ∧
      (sleeps tr).sum = (n : Int) * 5000000000 ∧
      ∀ pre post r, tr = pre ++ Event.Start r :: post →
        (r = none ∧ post = [Event.Serve (pluginMountPath env.commandLine) kubeletEndpoint
            ("nvidiaGPU-" ++ FormatInt (serveTime env n) ++ ".sock")]) ∨
        (∃ e post', r = some e ∧
          post = Event.InfofV3 "nvidiaGPUManager.Start() failed: %v" e
            :: Event.Sleep (5 * Second) :: post') := by
  have hsl : sleeps ([Event.Infoln "device-plugin started",
        Event.NewNvidiaGPUManager (hostPathPrefix env.commandLine)
          (containerPathPrefix env.commandLine)]
        ++ failedAttempts env.start 0 n
        ++ [Event.Start none]
        ++ [Event.Serve (pluginMountPath env.commandLine) kubeletEndpoint
            ("nvidiaGPU-" ++ FormatInt (serveTime env n) ++ ".sock")])
      = List.replicate n (5 * Second) := by
    simp only [sleeps_append, sleeps_failedAttempts env.start n 0 (by simpa using hfail)]
    simp [sleeps]
  refine ⟨_, main_serving env n fuel hparse hfail hn hf, ?_, hsl, ?_, ?_⟩
  · simp only [startResults_append,
      startResults_failedAttempts env.start n 0 (by simpa using hfail)]
    simp [startResults]
  · rw [hsl, List.sum_replicate]
    simp [Second]
  · intro pre post r h
    cases pre with
    | nil => simp at h
    | cons a pre1 =>
      cases pre1 with
      | nil => simp at h
      | cons b pre2 =>
        simp only [List.cons_append, List.nil_append, List.append_assoc,
          List.cons.injEq] at h
        refine after_start env.start _
          (fun r post => (r = none ∧
            post = [Event.Serve (pluginMountPath env.commandLine) kubeletEndpoint
              ("nvidiaGPU-" ++ FormatInt (serveTime env n) ++ ".sock")]) ∨
            (∃ e post', r = some e ∧
              post = Event.InfofV3 "nvidiaGPUManager.Start() failed: %v" e
                :: Event.Sleep (5 * Second) :: post'))
          ?_ ?_ n 0 pre2 post r h.2.2
        · intro e post'
          exact Or.inr ⟨e, post', rfl, rfl⟩
        · intro pre' post' r' h'
          cases pre' with
          | nil =>
            simp only [List.nil_append, List.cons.injEq, Event.Start.injEq] at h'
            exact Or.inl ⟨h'.1.symm, h'.2.symm⟩
          | cons c pre1 =>
            cases pre1 with
            | nil => simp at h'
            | cons c' p => simp at h'

/-- Witness for C5: three failed calls of `Start`, then a successful one. -/
theorem main_fixed_retry_interval_witness :
    ∃ tr, main (exampleEnv 17 3) 4 = some (tr, Phase.serving) ∧
      (startResults tr).length = 3 + 1 ∧
      sleeps tr = List.replicate 3 (5 * Second) ∧
      (sleeps tr).sum = ((3 : Nat) : Int) * 5000000000 ∧
      ∀ pre post r, tr = pre ++ Event.Start r :: post →
        (r = none ∧ post = [Event.Serve (pluginMountPath (exampleEnv 17 3).commandLine)
            kubeletEndpoint
            ("nvidiaGPU-" ++ FormatInt (serveTime (exampleEnv 17 3) 3) ++ ".sock")]) ∨
        (∃ e post', r = some e ∧
          post = Event.InfofV3 "nvidiaGPUManager.Start() failed: %v" e
            :: Event.Sleep (5 * Second) :: post') :=
  main_fixed_retry_interval (exampleEnv 17 3) 3 4 rfl (by decide) (by decide) (by decide)

end NvidiaGPU

/-! ## Flags, socket names and the clock -/

namespace NvidiaGPU

open Fmt

/-- The default of a flag is its value exactly when the command line does not set it. -/
theorem flagString_default (name value : String) (commandLine : List (String × String))
    (h : ∀ v, (name, v) ∉ commandLine) : flagString name value commandLine = value := by
  have hnone : commandLine.reverse.lookup name = none := by
    rw [List.lookup_eq_none_iff]
    intro p hp
    have hp' : p ∈ commandLine := List.mem_reverse.mp hp
    simp only [bne_iff_ne, ne_eq]
    intro hname
    exact h p.2 (by rw [hname]; exact hp')
  simp [flagString, hnone]

/-- The last setting of a flag on the command line is its value. -/
theorem flagString_set (name value v : String) (pre post : List (String × String))
    (h : ∀ w, (name, w) ∉ post) :
    flagString name value (pre ++ (name, v) :: post) = v := by
  have hnone : post.reverse.lookup name = none := by
    rw [List.lookup_eq_none_iff]
    intro p hp
    have hp' : p ∈ post := List.mem_reverse.mp hp
    simp only [bne_iff_ne, ne_eq]
    intro hname
    exact h p.2 (by rw [hname]; exact hp')
  simp [flagString, List.lookup_append, hnone]

/-- A setting that names a flag nobody defines makes `flag.Parse()` reject the command
line. -/
theorem flagParse_undefined (imported : String → Option (String → Bool))
    (commandLine : List (String × String)) (name v : String)
    (hmem : (name, v) ∈ commandLine) (hdecl : name ∉ declaredFlags)
    (himp : imported name = none) : flagParse imported commandLine = false := by
  rw [Bool.eq_false_iff]
  intro hall
  have h := List.all_eq_true.mp hall (name, v) hmem
  simp [himp] at h
  exact hdecl h

theorem FormatInt_105 : FormatInt 105 = "105" := by
  simp [FormatInt, formatBits]
  decide

theorem FormatInt_100 : FormatInt 100 = "100" := by
  simp [FormatInt, formatBits]
  decide

theorem FormatInt_0 : FormatInt 0 = "0" := by
  simp [FormatInt, formatBits]
  decide

/-- The run of a process started at second 100 whose first call of `Start` fails: the
socket name carries second 105. -/
theorem main_example_late :
    main (exampleEnv 100 1) 2 = some
      ([Event.Infoln "device-plugin started",
        Event.NewNvidiaGPUManager "/home/kubernetes/bin/nvidia" "/usr/local/nvidia",
        Event.Start (some "no devices"),
        Event.InfofV3 "nvidiaGPUManager.Start() failed: %v" "no devices",
        Event.Sleep 5000000000,
        Event.Start none,
        Event.Serve "/device-plugin" "kubelet.sock" "nvidiaGPU-105.sock"],
        Phase.serving) := by
  rw [main_serving (exampleEnv 100 1) 1 2 rfl (by decide) (by decide) (by decide)]
  have ht : serveTime (exampleEnv 100 1) 1 = 105 := by decide
  rw [ht, FormatInt_105]
  simp [failedAttempts, failedAttempt, exampleEnv, hostPathPrefix, containerPathPrefix,
    pluginMountPath, flagString, kubeletEndpoint, Second]
  decide

/-- The run of a process started at second 105 whose first call of `Start` succeeds:
the socket name carries second 105 as well. -/
theorem main_example_prompt :
    main (exampleEnv 105 0) 1 = some
      ([Event.Infoln "device-plugin started",
        Event.NewNvidiaGPUManager "/home/kubernetes/bin/nvidia" "/usr/local/nvidia",
        Event.Start none,
        Event.Serve "/device-plugin" "kubelet.sock" "nvidiaGPU-105.sock"],
        Phase.serving) := by
  rw [main_serving (exampleEnv 105 0) 0 1 rfl (by decide) (by decide) (by decide)]
  have ht : serveTime (exampleEnv 105 0) 0 = 105 := by decide
  rw [ht, FormatInt_105]
  simp [failedAttempts, exampleEnv, hostPathPrefix, containerPathPrefix,
    pluginMountPath, flagString, kubeletEndpoint]

end NvidiaGPU

/-! ## Socket names -/

namespace NvidiaGPU

open Fmt

/-- C2, as the claim states it, fails: a process started at Unix second 100 whose
first call of `Start` fails sleeps five seconds, reads the clock after the loop and
serves on `nvidiaGPU-105.sock`; the name built from the time stamp of process start,
`nvidiaGPU-100.sock`, is not what `Serve` receives. -/
theorem socket_name_not_from_process_start :
    (exampleEnv 100 1).processStart / Second = 100 ∧
      serveTime (exampleEnv 100 1) 1 = 105 ∧
      (∃ tr, main (exampleEnv 100 1) 2 = some (tr, Phase.serving) ∧
        serveCalls tr = [("/device-plugin", "kubelet.sock", "nvidiaGPU-105.sock")] ∧
        ∀ d k, Event.Serve d k
          ("nvidiaGPU-" ++ FormatInt ((exampleEnv 100 1).processStart / Second) ++ ".sock")
          ∉ tr) := by
  refine ⟨by decide, by decide, _, main_example_late, by decide, ?_⟩
  intro d k
  have h100 : (exampleEnv 100 1).processStart / Second = 100 := by decide
  rw [h100, FormatInt_100]
  have hname : "nvidiaGPU-" ++ "100" ++ ".sock" = "nvidiaGPU-100.sock" := by decide
  rw [hname]
  have hne : "nvidiaGPU-100.sock" ≠ "nvidiaGPU-105.sock" := by decide
  simp [hne]

/-- C2, amended. For every 64-bit Unix time `t` that `time.Now().Unix()` returns when
`main` builds the argument of `Serve`, which is after the retry loop and so at least
`5 * n` seconds after the time stamp of process start when `n` calls of `Start` failed:
the socket name is formatted (the format string stays in the modelled fragment) and is
exactly `"nvidiaGPU-"` followed by the decimal rendering of `t` followed by `".sock"`,
that is the constant `pluginEndpointPrefix`, a dash, `t` and `.sock`; the rendering
reads back as `t`; and `Serve` is called exactly once, with this string as its third
argument. -/
theorem main_socket_name_read_at_serve (env : Env) (n fuel : Nat) (t : Int)
    (hparse : flagParse env.imported env.commandLine = true)
    (hfail : ∀ j, j < n → env.start j ≠ none) (hn : env.start n = none) (hf : n < fuel)
    (ht : serveTime env n = t) (hlo : -2 ^ 63 ≤ t) (hhi : t < 2 ^ 63) :
    pluginSocketName t = some ("nvidiaGPU-" ++ FormatInt t ++ ".sock") ∧
      "nvidiaGPU-" ++ FormatInt t ++ ".sock"
        = pluginEndpointPrefix ++ "-" ++ FormatInt t ++ ".sock" ∧
      parseDecimal (FormatInt t) = t ∧
      (∃ tr, main env fuel = some (tr, Phase.serving) ∧
        serveCalls tr = [(pluginMountPath env.commandLine, kubeletEndpoint,
          "nvidiaGPU-" ++ FormatInt t ++ ".sock")]) ∧
      env.processStart / Second + 5 * (n : Int) ≤ t := by
  refine ⟨pluginSocketName_eq t, rfl, parseDecimal_FormatInt t hlo hhi, ?_, ?_⟩
  · obtain ⟨tr, _, hmain, _, hserve, _⟩ :=
      main_serving_observed env n fuel hparse hfail hn hf
    rw [ht] at hserve
    exact ⟨tr, hmain, hserve⟩
  · rw [← ht]
    exact serveTime_ge env n

/-- Witness for the amended C2: a process started at second 100 whose first call of
`Start` fails. -/
theorem main_socket_name_read_at_serve_witness :
    pluginSocketName 105 = some ("nvidiaGPU-" ++ FormatInt 105 ++ ".sock") ∧
      "nvidiaGPU-" ++ FormatInt 105 ++ ".sock"
        = pluginEndpointPrefix ++ "-" ++ FormatInt 105 ++ ".sock" ∧
      parseDecimal (FormatInt 105) = 105 ∧
      (∃ tr, main (exampleEnv 100 1) 2 = some (tr, Phase.serving) ∧
        serveCalls tr = [(pluginMountPath (exampleEnv 100 1).commandLine, kubeletEndpoint,
          "nvidiaGPU-" ++ FormatInt 105 ++ ".sock")]) ∧
      (exampleEnv 100 1).processStart / Second + 5 * ((1 : Nat) : Int) ≤ 105 :=
  main_socket_name_read_at_serve (exampleEnv 100 1) 1 2 105 rfl (by decide) (by decide)
    (by decide) (by decide) (by decide) (by decide)

/-- No character of the formatted socket name is a slash. -/
theorem socketName_no_slash (t : Int) :
    '/' ∉ ("nvidiaGPU-" ++ FormatInt t ++ ".sock").data := by
  simp only [String.data_append, List.mem_append, not_or]
  exact ⟨⟨by decide, FormatInt_no_slash t⟩, by decide⟩

/-- C3. For every time stamp `t` (zero and negative values included) the socket name
formatted from `t` contains no `/`; and in every run of `main`, whatever the flags,
the clock and the results of `Start`, each `Serve` call receives as plugin socket name
a string that contains no `/`, hence does not start with one, and as node-agent socket
name the constant `"kubelet.sock"`, which contains no `/` either. -/
theorem main_socket_names_relative (env : Env) (fuel : Nat) (tr : List Event) (ph : Phase)
    (hmain : main env fuel = some (tr, ph)) (d k s : String)
    (hmem : Event.Serve d k s ∈ tr) :
    '/' ∉ s.data ∧ s.data.head? ≠ some '/' ∧
      k = "kubelet.sock" ∧ '/' ∉ k.data ∧ k.data.head? ≠ some '/' ∧
      ∀ t : Int, ∃ name, pluginSocketName t = some name ∧ '/' ∉ name.data ∧
        name.data.head? ≠ some '/' := by
  obtain ⟨n, _, _, _, _, hk, hs⟩ := main_serve_args env fuel tr ph hmain d k s hmem
  have hslash : '/' ∉ s.data := by
    rw [hs]
    exact socketName_no_slash _
  have hkd : k = "kubelet.sock" := hk
  refine ⟨hslash, ?_, hkd, ?_, ?_, ?_⟩
  · intro hhead
    exact hslash (List.mem_of_mem_head? hhead)
  · rw [hkd]
    decide
  · rw [hkd]
    decide
  · intro t
    refine ⟨_, pluginSocketName_eq t, socketName_no_slash t, ?_⟩
    intro hhead
    exact socketName_no_slash t (List.mem_of_mem_head? hhead)

/-- Witness for C3: a run started five seconds before the Unix epoch with all three
flags set to absolute paths. -/
theorem main_socket_names_relative_witness :
    '/' ∉ ("nvidiaGPU-" ++ FormatInt (-5) ++ ".sock").data ∧
      ("nvidiaGPU-" ++ FormatInt (-5) ++ ".sock").data.head? ≠ some '/' ∧
      kubeletEndpoint = "kubelet.sock" ∧ '/' ∉ kubeletEndpoint.data ∧
      kubeletEndpoint.data.head? ≠ some '/' ∧
      ∀ t : Int, ∃ name, pluginSocketName t = some name ∧ '/' ∉ name.data ∧
        name.data.head? ≠ some '/' :=
  main_socket_names_relative
    { exampleEnv (-5) 0 with
      commandLine := [("host-path", "/opt/nvidia"), ("container-path", "/nvidia"),
        ("plugin-directory", "/p")] }
    1 _ Phase.serving
    (main_serving _ 0 1 (by decide) (by decide) (by decide) (by decide))
    (pluginMountPath
      [("host-path", "/opt/nvidia"), ("container-path", "/nvidia"), ("plugin-directory", "/p")])
    kubeletEndpoint ("nvidiaGPU-" ++ FormatInt (-5) ++ ".sock")
    (by
      have ht : serveTime { exampleEnv (-5) 0 with
          commandLine := [("host-path", "/opt/nvidia"), ("container-path", "/nvidia"),
            ("plugin-directory", "/p")] } 0 = -5 := by decide
      rw [ht]
      simp)

end NvidiaGPU

/-! ## Collisions and defaults -/

namespace NvidiaGPU

open Fmt

/-- C4, as the claim states it, fails: a process started at Unix second 100 whose first
call of `Start` fails and a process started at second 105 whose first call succeeds
start at different seconds and both serve on `nvidiaGPU-105.sock`. -/
theorem socket_names_collide_across_starts :
    (exampleEnv 100 1).processStart / Second ≠ (exampleEnv 105 0).processStart / Second ∧
      ∃ tr1 tr2, main (exampleEnv 100 1) 2 = some (tr1, Phase.serving) ∧
        main (exampleEnv 105 0) 1 = some (tr2, Phase.serving) ∧
        serveCalls tr1 = [("/device-plugin", "kubelet.sock", "nvidiaGPU-105.sock")] ∧
        serveCalls tr2 = [("/device-plugin", "kubelet.sock", "nvidiaGPU-105.sock")] :=
  ⟨by decide, _, _, main_example_late, main_example_prompt, by decide, by decide⟩

/-- C4, amended. The socket name is injective in the time stamp that
`time.Now().Unix()` returns when `main` builds the argument of `Serve`, after the
retry loop: for any two 64-bit Unix times `t1 ≠ t2` the formatted names are different
strings, and two runs of `main` that read `t1` and `t2` at that point call `Serve`
once each, with different socket names. -/
theorem socket_name_injective_in_serve_time (t1 t2 : Int)
    (h1lo : -2 ^ 63 ≤ t1) (h1hi : t1 < 2 ^ 63)
    (h2lo : -2 ^ 63 ≤ t2) (h2hi : t2 < 2 ^ 63) (hne : t1 ≠ t2) :
    pluginSocketName t1 ≠ pluginSocketName t2 ∧
      "nvidiaGPU-" ++ FormatInt t1 ++ ".sock" ≠ "nvidiaGPU-" ++ FormatInt t2 ++ ".sock" ∧
      ∀ (env1 env2 : Env) (n1 n2 fuel1 fuel2 : Nat),
        flagParse env1.imported env1.commandLine = true →
        flagParse env2.imported env2.commandLine = true →
        (∀ j, j < n1 → env1.start j ≠ none) → env1.start n1 = none → n1 < fuel1 →
        (∀ j, j < n2 → env2.start j ≠ none) → env2.start n2 = none → n2 < fuel2 →
        serveTime env1 n1 = t1 → serveTime env2 n2 = t2 →
        ∃ tr1 tr2 s1 s2, main env1 fuel1 = some (tr1, Phase.serving) ∧
          main env2 fuel2 = some (tr2, Phase.serving) ∧
          serveCalls tr1 = [(pluginMountPath env1.commandLine, kubeletEndpoint, s1)] ∧
          serveCalls tr2 = [(pluginMountPath env2.commandLine, kubeletEndpoint, s2)] ∧
          s1 ≠ s2 := by
  have hname : "nvidiaGPU-" ++ FormatInt t1 ++ ".sock"
      ≠ "nvidiaGPU-" ++ FormatInt t2 ++ ".sock" := by
    intro heq
    have hdata := congrArg String.data heq
    simp only [String.data_append, List.append_assoc] at hdata
    have hmid := List.append_cancel_right (List.append_cancel_left hdata)
    have hfmt : FormatInt t1 = FormatInt t2 := String.ext hmid
    have hparse := congrArg parseDecimal hfmt
    rw [parseDecimal_FormatInt t1 h1lo h1hi, parseDecimal_FormatInt t2 h2lo h2hi] at hparse
    exact hne hparse
  refine ⟨?_, hname, ?_⟩
  · rw [pluginSocketName_eq, pluginSocketName_eq]
    intro heq
    exact hname (Option.some.inj heq)
  · intro env1 env2 n1 n2 fuel1 fuel2 hp1 hp2 hf1 hs1 hl1 hf2 hs2 hl2 ht1 ht2
    obtain ⟨tr1, _, hm1, _, hc1, _⟩ := main_serving_observed env1 n1 fuel1 hp1 hf1 hs1 hl1
    obtain ⟨tr2, _, hm2, _, hc2, _⟩ := main_serving_observed env2 n2 fuel2 hp2 hf2 hs2 hl2
    rw [ht1] at hc1
    rw [ht2] at hc2
    exact ⟨tr1, tr2, _, _, hm1, hm2, hc1, hc2, hname⟩

/-- Witness for the amended C4: two processes that read the seconds 105 and 106 when
they leave the loop. -/
theorem socket_name_injective_in_serve_time_witness :
    ∃ tr1 tr2 s1 s2, main (exampleEnv 100 1) 2 = some (tr1, Phase.serving) ∧
      main (exampleEnv 106 0) 1 = some (tr2, Phase.serving) ∧
      serveCalls tr1
        = [(pluginMountPath (exampleEnv 100 1).commandLine, kubeletEndpoint, s1)] ∧
      serveCalls tr2
        = [(pluginMountPath (exampleEnv 106 0).commandLine, kubeletEndpoint, s2)] ∧
      s1 ≠ s2 :=
  (socket_name_injective_in_serve_time 105 106 (by decide) (by decide) (by decide)
    (by decide) (by decide)).2.2 (exampleEnv 100 1) (exampleEnv 106 0) 1 0 2 1 rfl rfl
    (by decide) (by decide) (by decide) (by decide) (by decide) (by decide)
    (by decide) (by decide)

/-- C6, as the claim states it, fails: started with no flag at all, `main` constructs
the manager with the built-in paths `/home/kubernetes/bin/nvidia` and
`/usr/local/nvidia` and serves in the built-in directory `/device-plugin`. -/
theorem main_no_flags_uses_defaults :
    (exampleEnv 0 0).commandLine = [] ∧
      main (exampleEnv 0 0) 1 = some
        ([Event.Infoln "device-plugin started",
          Event.NewNvidiaGPUManager "/home/kubernetes/bin/nvidia" "/usr/local/nvidia",
          Event.Start none,
          Event.Serve "/device-plugin" "kubelet.sock" "nvidiaGPU-0.sock"],
          Phase.serving) := by
  refine ⟨rfl, ?_⟩
  rw [main_serving (exampleEnv 0 0) 0 1 rfl (by decide) (by decide) (by decide)]
  have ht : serveTime (exampleEnv 0 0) 0 = 0 := by decide
  rw [ht, FormatInt_0]
  simp [failedAttempts, exampleEnv, hostPathPrefix, containerPathPrefix,
    pluginMountPath, flagString, kubeletEndpoint]

/-- A command line that names the undefined flag `-bogus` makes the process exit in
`flag.Parse()`: no manager is constructed and nothing is served. -/
theorem main_undefined_flag_exits (fuel : Nat) :
    main { exampleEnv 0 0 with commandLine := [("bogus", "x")] } fuel
      = some ([], Phase.exited) :=
  main_exited _ fuel (by decide)

/-- C6, amended. The three start-up parameters are optional flags with built-in
defaults. On a command line that `flag.Parse()` accepts, every run of `main`
constructs the manager with the values of `-host-path` and `-container-path` and,
once `Start` has succeeded, serves in the value of `-plugin-directory`, where the
value of a flag that the command line does not set is its default
(`/home/kubernetes/bin/nvidia`, `/usr/local/nvidia`, `/device-plugin`) and the value
of a flag that is set is its last setting. On a command line that `flag.Parse()`
rejects, as one that names an undefined flag, the process exits before the manager is
constructed. -/
theorem main_flags_have_defaults (env : Env) (fuel : Nat) :
    (flagParse env.imported env.commandLine = true →
      ∃ tr ph, main env fuel = some (tr, ph) ∧
        tr.take 2 = [Event.Infoln "device-plugin started",
          Event.NewNvidiaGPUManager
            (flagString "host-path" "/home/kubernetes/bin/nvidia" env.commandLine)
            (flagString "container-path" "/usr/local/nvidia" env.commandLine)] ∧
        (∀ d k s, Event.Serve d k s ∈ tr →
          d = flagString "plugin-directory" "/device-plugin" env.commandLine) ∧
        (∀ n, (∀ j, j < n → env.start j ≠ none) → env.start n = none → n < fuel →
          ∃ s, serveCalls tr
            = [(flagString "plugin-directory" "/device-plugin" env.commandLine,
                kubeletEndpoint, s)])) ∧
    (flagParse env.imported env.commandLine = false →
      main env fuel = some ([], Phase.exited)) ∧
    (∀ name v, (name, v) ∈ env.commandLine → name ∉ declaredFlags →
      env.imported name = none → flagParse env.imported env.commandLine = false) ∧
    (∀ name value, (∀ v, (name, v) ∉ env.commandLine) →
      flagString name value env.commandLine = value) ∧
    (∀ name value v pre post, env.commandLine = pre ++ (name, v) :: post →
      (∀ w, (name, w) ∉ post) → flagString name value env.commandLine = v) := by
  refine ⟨?_, ?_, ?_, ?_, ?_⟩
  · intro hparse
    have hex : ∃ tr ph, main env fuel = some (tr, ph) ∧
        tr.take 2 = [Event.Infoln "device-plugin started",
          Event.NewNvidiaGPUManager
            (flagString "host-path" "/home/kubernetes/bin/nvidia" env.commandLine)
            (flagString "container-path" "/usr/local/nvidia" env.commandLine)] := by
      rcases first_success env.start fuel with hfail | ⟨n, hn, hnone, hfail⟩
      · exact ⟨_, _, main_retrying env fuel hparse hfail, rfl⟩
      · exact ⟨_, _, main_serving env n fuel hparse hfail hnone hn, rfl⟩
    obtain ⟨tr, ph, hmain, htake⟩ := hex
    refine ⟨tr, ph, hmain, htake, ?_, ?_⟩
    · intro d k s hmem
      obtain ⟨_, _, _, _, hd, _⟩ := main_serve_args env fuel tr ph hmain d k s hmem
      exact hd
    · intro n hfail hn hf
      obtain ⟨tr', _, hmain', _, hserve, _⟩ :=
        main_serving_observed env n fuel hparse hfail hn hf
      rw [hmain] at hmain'
      simp only [Option.some.injEq, Prod.mk.injEq] at hmain'
      rw [hmain'.1]
      exact ⟨_, hserve⟩
  · intro hparse
    exact main_exited env fuel hparse
  · intro name v hmem hdecl himp
    exact flagParse_undefined env.imported env.commandLine name v hmem hdecl himp
  · intro name value h
    exact flagString_default name value env.commandLine h
  · intro name value v pre post hcl h
    rw [hcl]
    exact flagString_set name value v pre post h

/-- Witness for the amended C6: only `-plugin-directory` is set, twice, so the host
path keeps its default and the plugin directory takes its last setting. -/
theorem main_flags_have_defaults_witness :
    flagString "host-path" "/home/kubernetes/bin/nvidia"
        [("plugin-directory", "/x"), ("plugin-directory", "/y")]
      = "/home/kubernetes/bin/nvidia" ∧
    flagString "plugin-directory" "/device-plugin"
        [("plugin-directory", "/x"), ("plugin-directory", "/y")] = "/y" ∧
    main { exampleEnv 0 0 with commandLine := [("bogus", "x")] } 1
      = some ([], Phase.exited) :=
  ⟨(main_flags_have_defaults
      { exampleEnv 0 0 with
        commandLine := [("plugin-directory", "/x"), ("plugin-directory", "/y")] } 1).2.2.2.1
      "host-path" "/home/kubernetes/bin/nvidia" (by simp [exampleEnv]),
    (main_flags_have_defaults
      { exampleEnv 0 0 with
        commandLine := [("plugin-directory", "/x"), ("plugin-directory", "/y")] } 1).2.2.2.2
      "plugin-directory" "/device-plugin" "/y" [("plugin-directory", "/x")] [] rfl
      (by simp),
    (main_flags_have_defaults { exampleEnv 0 0 with commandLine := [("bogus", "x")] } 1).2.1
      (by decide)⟩

end NvidiaGPU

/-! ## The allocation resolver -/

namespace Allocation

theorem lookup_eq_none_of_not_mem (inventory : List Device) (id : String)
    (h : id ∉ inventory.map Device.id) : lookup inventory id = none := by
  simp only [lookup, List.find?_eq_none, decide_eq_true_eq]
  intro d hd hid
  exact h (List.mem_map.mpr ⟨d, hd, hid⟩)

theorem lookup_isSome_of_mem (inventory : List Device) (id : String)
    (h : id ∈ inventory.map Device.id) : (lookup inventory id).isSome = true := by
  obtain ⟨d, hd, hid⟩ := List.mem_map.mp h
  simp only [lookup, List.find?_isSome, decide_eq_true_eq]
  exact ⟨d, hd, hid⟩

/-- C7. For every inventory `I` and request `R`: if `R` contains an id that is not
among the ids of `I`, or an id whose entry in `I` is Unhealthy, then `resolve` fails
and returns no response at all; the error is `UnknownDevice` when the id is not
enumerated (whatever else `R` holds) and `UnhealthyDevice` when the id is Unhealthy and
every requested id is enumerated. -/
theorem resolve_rejects_bad_device (cfg : Config) (R : List String) (I : List Device)
    (id : String) (hmem : id ∈ R)
    (hbad : id ∉ I.map Device.id ∨
      ∃ d, lookup I id = some d ∧ d.health = Health.Unhealthy) :
    (resolve cfg R I = Except.error AllocError.UnknownDevice ∨
      resolve cfg R I = Except.error AllocError.UnhealthyDevice) ∧
    (∀ resp, resolve cfg R I ≠ Except.ok resp) ∧
    (id ∉ I.map Device.id → resolve cfg R I = Except.error AllocError.UnknownDevice) ∧
    ((∃ d, lookup I id = some d ∧ d.health = Health.Unhealthy) →
      (∀ id', id' ∈ R → id' ∈ I.map Device.id) →
      resolve cfg R I = Except.error AllocError.UnhealthyDevice) := by
  have hunknown : id ∉ I.map Device.id →
      resolve cfg R I = Except.error AllocError.UnknownDevice := by
    intro hid
    have hany : R.any (fun id => (lookup I id).isNone) = true := by
      rw [List.any_eq_true]
      exact ⟨id, hmem, by rw [lookup_eq_none_of_not_mem I id hid]; rfl⟩
    simp [resolve, hany]
  have hsick : (∃ d, lookup I id = some d ∧ d.health = Health.Unhealthy) →
      R.any (fun id => (lookup I id).any (fun d => d.health = Health.Unhealthy)) = true := by
    rintro ⟨d, hd, hh⟩
    rw [List.any_eq_true]
    exact ⟨id, hmem, by simp [hd, hh]⟩
  have hfail : resolve cfg R I = Except.error AllocError.UnknownDevice ∨
      resolve cfg R I = Except.error AllocError.UnhealthyDevice := by
    rcases hbad with hid | hun
    · exact Or.inl (hunknown hid)
    · by_cases hany : R.any (fun id => (lookup I id).isNone) = true
      · left
        simp [resolve, hany]
      · right
        simp only [resolve, hany, hsick hun]
        simp
  refine ⟨hfail, ?_, hunknown, ?_⟩
  · intro resp hok
    rcases hfail with h | h <;> rw [h] at hok <;> cases hok
  · intro hun hall
    have hany : ¬ R.any (fun id => (lookup I id).isNone) = true := by
      rw [List.any_eq_true]
      rintro ⟨id', hid', hnone⟩
      have := lookup_isSome_of_mem I id' (hall id' hid')
      cases hl : lookup I id' with
      | none => rw [hl] at this; cases this
      | some d => rw [hl] at hnone; cases hnone
    simp only [resolve, hany, hsick hun]
    simp

/-- Witness for C7: the scenario of the spec, an inventory whose only device `GPU0` is
Unhealthy and a request for `GPU0`. -/
theorem resolve_rejects_bad_device_witness :
    resolve ⟨fun id => ⟨id, id, "mrw"⟩, [], []⟩ ["GPU0"]
        [{ id := "GPU0", health := Health.Unhealthy }]
      = Except.error AllocError.UnhealthyDevice :=
  (resolve_rejects_bad_device ⟨fun id => ⟨id, id, "mrw"⟩, [], []⟩ ["GPU0"]
    [{ id := "GPU0", health := Health.Unhealthy }]
    "GPU0" (by simp)
    (Or.inr ⟨{ id := "GPU0", health := Health.Unhealthy }, by simp [lookup], rfl⟩)).2.2.2
    ⟨{ id := "GPU0", health := Health.Unhealthy }, by simp [lookup], rfl⟩
    (by simp)

end Allocation

/-! ## `TokenREST.Create` -/

namespace Token

/-- The reason of the BadRequest error, written in `Create` as a concatenation, is what
`fmt.Sprintf("cannot bind token to object of type %s", s)` evaluates to. -/
theorem Sprintf_cannot_bind (s : String) :
    Fmt.Sprintf "cannot bind token to object of type %s" [Fmt.Arg.str s]
      = some ("cannot bind token to object of type " ++ s) := by
  simp [Fmt.Sprintf, Fmt.doPrintf]
  rfl

/-- C8. For a request that passes validation and whose service account is found:
a bound object reference whose parsed group and kind are neither `("", "Pod")` nor
`("", "Secret")` makes `Create` return a BadRequest error after the validation and the
service account lookup only, so no pod, secret or issuer call is made; for
`("", "Pod")` the pods getter is called and the secrets getter is not; for
`("", "Secret")` the secrets getter is called and the pods getter is not; without a
reference neither getter is called and the claims are built with nil pod and nil
secret. -/
theorem Create_bound_object_dispatch {PC : Type} (r : TokenREST PC) (name : String)
    (out : TokenRequest) (svcacct : ServiceAccount)
    (hval : r.createValidation (Object.tokenRequest out) = none)
    (hsa : r.svcaccts name = Except.ok (Object.serviceAccount svcacct)) :
    (∀ ref, out.Spec.BoundObjectRef = some ref →
      ¬ ((r.FromAPIVersionAndKind ref.APIVersion ref.Kind).Group = "" ∧
          (r.FromAPIVersionAndKind ref.APIVersion ref.Kind).Kind = "Pod") →
      ¬ ((r.FromAPIVersionAndKind ref.APIVersion ref.Kind).Group = "" ∧
          (r.FromAPIVersionAndKind ref.APIVersion ref.Kind).Kind = "Secret") →
      (∃ e, (Create r name (Object.tokenRequest out)).outcome
          = Outcome.returned none (some e) ∧ IsBadRequest e = true) ∧
        (Create r name (Object.tokenRequest out)).calls
          = [Call.createValidation (Object.tokenRequest out), Call.svcacctsGet name]) ∧
    (∀ ref, out.Spec.BoundObjectRef = some ref →
      (r.FromAPIVersionAndKind ref.APIVersion ref.Kind).Group = "" →
      (r.FromAPIVersionAndKind ref.APIVersion ref.Kind).Kind = "Pod" →
      Call.podsGet ref.Name ∈ (Create r name (Object.tokenRequest out)).calls ∧
        ∀ n, Call.secretsGet n ∉ (Create r name (Object.tokenRequest out)).calls) ∧
    (∀ ref, out.Spec.BoundObjectRef = some ref →
      (r.FromAPIVersionAndKind ref.APIVersion ref.Kind).Group = "" →
      (r.FromAPIVersionAndKind ref.APIVersion ref.Kind).Kind = "Secret" →
      Call.secretsGet ref.Name ∈ (Create r name (Object.tokenRequest out)).calls ∧
        ∀ n, Call.podsGet n ∉ (Create r name (Object.tokenRequest out)).calls) ∧
    (out.Spec.BoundObjectRef = none →
      (Create r name (Object.tokenRequest out)).calls
        = [Call.createValidation (Object.tokenRequest out), Call.svcacctsGet name,
            Call.Claims svcacct none none out.Spec.ExpirationSeconds out.Spec.Audiences,
            Call.GenerateToken
              (r.Claims svcacct none none out.Spec.ExpirationSeconds out.Spec.Audiences).1
              (r.Claims svcacct none none out.Spec.ExpirationSeconds
                out.Spec.Audiences).2]) := by
  refine ⟨?_, ?_, ?_, ?_⟩
  · intro ref href hpod hsecret
    simp [Create, hval, hsa, href, hpod, hsecret, IsBadRequest]
  · intro ref href hg hk
    simp only [Create, hval, hsa, href, hg, hk, and_self, if_true]
    cases hp : r.pods ref.Name with
    | error err => simp
    | ok o =>
      cases o with
      | pod p =>
        simp only [checkUID, issue]
        split
        · simp
        · split <;> simp
      | tokenRequest t => simp
      | serviceAccount t => simp
      | secret t => simp
  · intro ref href hg hk
    have hnp : ¬ ("Secret" = "Pod") := by decide
    simp only [Create, hval, hsa, href, hg, hk, and_self, if_true, hnp, and_false, if_false]
    cases hp : r.secrets ref.Name with
    | error err => simp
    | ok o =>
      cases o with
      | secret p =>
        simp only [checkUID, issue]
        split
        · simp
        · split <;> simp
      | tokenRequest t => simp
      | serviceAccount t => simp
      | pod t => simp
  · intro href
    simp only [Create, hval, hsa, href, issue]
    split <;> simp

/-- Witness for C8: a reference of kind `Deployment` is answered with BadRequest after
the validation and the service account lookup only. -/
theorem Create_bound_object_dispatch_witness :
    (∃ e, (Create exampleREST "sa" (Object.tokenRequest (exampleRequest "Deployment" ""))).outcome
        = Outcome.returned none (some e) ∧ IsBadRequest e = true) ∧
      (Create exampleREST "sa" (Object.tokenRequest (exampleRequest "Deployment" ""))).calls
        = [Call.createValidation (Object.tokenRequest (exampleRequest "Deployment" "")),
            Call.svcacctsGet "sa"] :=
  (Create_bound_object_dispatch exampleREST "sa" (exampleRequest "Deployment" "")
    ⟨⟨"sa", "ns", "uid-0"⟩⟩ rfl rfl).1
    { Kind := "Deployment", APIVersion := "v1", Name := "obj", UID := "" } rfl
    (by simp [exampleREST]) (by simp [exampleREST])

/-- C9. For a request bound to a Pod or a Secret for which validation, the service
account lookup and the bound object lookup succeed: `Create` returns a Conflict error
if and only if `ref.UID` is non-empty and differs from the UID of the fetched object;
in particular an empty `ref.UID` never gives a Conflict; and in the Conflict case
neither `token.Claims` nor the issuer is called. -/
theorem Create_conflict_iff {PC : Type} (r : TokenREST PC) (name : String)
    (out : TokenRequest) (svcacct : ServiceAccount) (ref : BoundObjectReference)
    (fetched : ObjectMeta)
    (hval : r.createValidation (Object.tokenRequest out) = none)
    (hsa : r.svcaccts name = Except.ok (Object.serviceAccount svcacct))
    (href : out.Spec.BoundObjectRef = some ref)
    (hgroup : (r.FromAPIVersionAndKind ref.APIVersion ref.Kind).Group = "")
    (hobj : ((r.FromAPIVersionAndKind ref.APIVersion ref.Kind).Kind = "Pod" ∧
        r.pods ref.Name = Except.ok (Object.pod ⟨fetched⟩)) ∨
      ((r.FromAPIVersionAndKind ref.APIVersion ref.Kind).Kind = "Secret" ∧
        r.secrets ref.Name = Except.ok (Object.secret ⟨fetched⟩))) :
    ((∃ o e, (Create r name (Object.tokenRequest out)).outcome
        = Outcome.returned o (some e) ∧ IsConflict e = true)
      ↔ (ref.UID ≠ "" ∧ fetched.UID ≠ ref.UID)) ∧
    (ref.UID = "" → ¬ ∃ o e, (Create r name (Object.tokenRequest out)).outcome
        = Outcome.returned o (some e) ∧ IsConflict e = true) ∧
    (ref.UID ≠ "" ∧ fetched.UID ≠ ref.UID →
      (∃ e, (Create r name (Object.tokenRequest out)).outcome
        = Outcome.returned none (some e) ∧ IsConflict e = true) ∧
      (∀ sc pc, Call.GenerateToken sc pc ∉ (Create r name (Object.tokenRequest out)).calls) ∧
      (Create r name (Object.tokenRequest out)).request = Object.tokenRequest out) := by
  have hnp : ¬ ("Secret" = "Pod") := by decide
  have key : ((∃ o e, (Create r name (Object.tokenRequest out)).outcome
        = Outcome.returned o (some e) ∧ IsConflict e = true)
      ↔ (ref.UID ≠ "" ∧ fetched.UID ≠ ref.UID)) ∧
      (ref.UID ≠ "" ∧ fetched.UID ≠ ref.UID →
        (∃ e, (Create r name (Object.tokenRequest out)).outcome
          = Outcome.returned none (some e) ∧ IsConflict e = true) ∧
        (∀ sc pc, Call.GenerateToken sc pc ∉ (Create r name (Object.tokenRequest out)).calls) ∧
        (Create r name (Object.tokenRequest out)).request = Object.tokenRequest out) := by
    rcases hobj with ⟨hk, hget⟩ | ⟨hk, hget⟩
    · simp only [Create, hval, hsa, href, hgroup, hk, and_self, if_true, hget, checkUID]
      by_cases hc : ref.UID ≠ "" ∧ fetched.UID ≠ ref.UID
      · simp [hc, IsConflict]
        exact ⟨none, _, ⟨rfl, rfl⟩, rfl⟩
      · simp only [hc, if_false, issue, iff_false, false_implies, and_true]
        split <;> simp [IsConflict]
    · simp only [Create, hval, hsa, href, hgroup, hk, and_self, if_true, hget, checkUID,
        hnp, and_false, if_false]
      by_cases hc : ref.UID ≠ "" ∧ fetched.UID ≠ ref.UID
      · simp [hc, IsConflict]
        exact ⟨none, _, ⟨rfl, rfl⟩, rfl⟩
      · simp only [hc, if_false, issue, iff_false, false_implies, and_true]
        split <;> simp [IsConflict]
  refine ⟨key.1, ?_, key.2⟩
  intro hempty hconf
  exact (key.1.mp hconf).1 hempty

/-- Witness for C9: the reference names the UID `uid-9` and the pod in record has
`uid-1`. -/
theorem Create_conflict_iff_witness :
    (∃ e, (Create exampleREST "sa" (Object.tokenRequest (exampleRequest "Pod" "uid-9"))).outcome
        = Outcome.returned none (some e) ∧ IsConflict e = true) ∧
      (∀ sc pc, Call.GenerateToken sc pc
        ∉ (Create exampleREST "sa" (Object.tokenRequest (exampleRequest "Pod" "uid-9"))).calls) ∧
      (Create exampleREST "sa" (Object.tokenRequest (exampleRequest "Pod" "uid-9"))).request
        = Object.tokenRequest (exampleRequest "Pod" "uid-9") :=
  (Create_conflict_iff exampleREST "sa" (exampleRequest "Pod" "uid-9")
    ⟨⟨"sa", "ns", "uid-0"⟩⟩
    { Kind := "Pod", APIVersion := "v1", Name := "obj", UID := "uid-9" }
    ⟨"obj", "ns", "uid-1"⟩ rfl rfl rfl rfl (Or.inl ⟨rfl, rfl⟩)).2.2
    ⟨by decide, by decide⟩

theorem issue_atomic {PC : Type} (r : TokenREST PC) (calls : List (Call PC))
    (out : TokenRequest) (svcacct : ServiceAccount) (pod : Option Pod)
    (secret : Option Secret) :
    AtomicRun r (Object.tokenRequest out) (issue r calls out svcacct pod secret) := by
  unfold AtomicRun
  simp only [issue]
  split
  · refine ⟨?_, ?_, ?_⟩
    · intro o e ho
      simp only [Outcome.returned.injEq] at ho
      exact ⟨ho.1.symm, rfl⟩
    · intro _
      rfl
    · intro o ho
      simp at ho
  · rename_i tokdata h
    refine ⟨?_, ?_, ?_⟩
    · intro o e ho
      simp at ho
    · intro ho
      simp at ho
    · intro o ho
      simp only [Outcome.returned.injEq] at ho
      exact ⟨out, svcacct, pod, secret, tokdata, rfl, h, rfl, ho.1.symm⟩

theorem checkUID_atomic {PC : Type} (r : TokenREST PC) (calls : List (Call PC))
    (out : TokenRequest) (svcacct : ServiceAccount) (ref : BoundObjectReference)
    (gvk : GroupVersionKind) (pod : Option Pod) (secret : Option Secret) (uid : String) :
    AtomicRun r (Object.tokenRequest out)
      (checkUID r calls out svcacct ref gvk pod secret uid) := by
  unfold checkUID
  split
  · refine ⟨?_, ?_, ?_⟩
    · intro o e ho
      simp only [Outcome.returned.injEq] at ho
      exact ⟨ho.1.symm, rfl⟩
    · intro _
      rfl
    · intro o ho
      simp at ho
  · exact issue_atomic r calls out svcacct pod secret

/-- A run that fails or panics without touching the request is atomic. -/
theorem atomic_of_untouched {PC : Type} (r : TokenREST PC) (obj : Object) (R : Run PC)
    (hreq : R.request = obj)
    (hout : R.outcome = Outcome.panicked ∨ ∃ e, R.outcome = Outcome.returned none (some e)) :
    AtomicRun r obj R := by
  refine ⟨?_, fun _ => hreq, ?_⟩
  · intro o e ho
    rcases hout with h | ⟨e', h⟩
    · rw [h] at ho; cases ho
    · rw [h] at ho
      simp only [Outcome.returned.injEq] at ho
      exact ⟨ho.1.symm, hreq⟩
  · intro o ho
    rcases hout with h | ⟨e', h⟩
    · rw [h] at ho; cases ho
    · rw [h] at ho
      simp at ho

theorem Create_atomic {PC : Type} (r : TokenREST PC) (name : String) (obj : Object) :
    AtomicRun r obj (Create r name obj) := by
  cases hv : r.createValidation obj with
  | some err =>
    simp only [Create, hv]
    exact atomic_of_untouched _ _ _ rfl (Or.inr ⟨_, rfl⟩)
  | none =>
    cases obj with
    | tokenRequest out =>
      cases hsa : r.svcaccts name with
      | error err =>
        simp only [Create, hv, hsa]
        exact atomic_of_untouched _ _ _ rfl (Or.inr ⟨_, rfl⟩)
      | ok o =>
        cases o with
        | serviceAccount svcacct =>
          cases href : out.Spec.BoundObjectRef with
          | none =>
            simp only [Create, hv, hsa, href]
            exact issue_atomic _ _ _ _ _ _
          | some ref =>
            simp only [Create, hv, hsa, href]
            split
            · cases hp : r.pods ref.Name with
              | error err => exact atomic_of_untouched _ _ _ rfl (Or.inr ⟨_, rfl⟩)
              | ok o =>
                cases o with
                | pod p => exact checkUID_atomic _ _ _ _ _ _ _ _ _
                | tokenRequest t => exact atomic_of_untouched _ _ _ rfl (Or.inl rfl)
                | serviceAccount t => exact atomic_of_untouched _ _ _ rfl (Or.inl rfl)
                | secret t => exact atomic_of_untouched _ _ _ rfl (Or.inl rfl)
            · split
              · cases hp : r.secrets ref.Name with
                | error err => exact atomic_of_untouched _ _ _ rfl (Or.inr ⟨_, rfl⟩)
                | ok o =>
                  cases o with
                  | secret p => exact checkUID_atomic _ _ _ _ _ _ _ _ _
                  | tokenRequest t => exact atomic_of_untouched _ _ _ rfl (Or.inl rfl)
                  | serviceAccount t => exact atomic_of_untouched _ _ _ rfl (Or.inl rfl)
                  | pod t => exact atomic_of_untouched _ _ _ rfl (Or.inl rfl)
              · exact atomic_of_untouched _ _ _ rfl (Or.inr ⟨_, rfl⟩)
        | tokenRequest t =>
          simp only [Create, hv, hsa]
          exact atomic_of_untouched _ _ _ rfl (Or.inl rfl)
        | pod t =>
          simp only [Create, hv, hsa]
          exact atomic_of_untouched _ _ _ rfl (Or.inl rfl)
        | secret t =>
          simp only [Create, hv, hsa]
          exact atomic_of_untouched _ _ _ rfl (Or.inl rfl)
    | serviceAccount t =>
      simp only [Create, hv]
      exact atomic_of_untouched _ _ _ rfl (Or.inl rfl)
    | pod t =>
      simp only [Create, hv]
      exact atomic_of_untouched _ _ _ rfl (Or.inl rfl)
    | secret t =>
      simp only [Create, hv]
      exact atomic_of_untouched _ _ _ rfl (Or.inl rfl)

/-- C10. `Create` is atomic on the request object: whenever it returns an error the
returned object is nil and the request is left exactly as it was (so `Status` is
unchanged), a panic leaves it as it was too, and the request is written only on the
success path, where the returned object is the request with `Spec` unchanged,
`Status.Token` the token the issuer generated and `Status.ExpirationTimestamp` the
expiry of the claims computed by `token.Claims`. -/
theorem Create_error_leaves_request {PC : Type} (r : TokenREST PC) (name : String)
    (obj : Object) :
    (∀ o e, (Create r name obj).outcome = Outcome.returned o (some e) →
      o = none ∧ (Create r name obj).request = obj) ∧
    ((Create r name obj).outcome = Outcome.panicked → (Create r name obj).request = obj) ∧
    (∀ o, (Create r name obj).outcome = Outcome.returned o none →
      ∃ out svcacct pod secret tokdata,
        obj = Object.tokenRequest out ∧
        r.issuer
            (r.Claims svcacct pod secret out.Spec.ExpirationSeconds out.Spec.Audiences).1
            (r.Claims svcacct pod secret out.Spec.ExpirationSeconds out.Spec.Audiences).2
          = Except.ok tokdata ∧
        (Create r name obj).request = Object.tokenRequest
          { Spec := out.Spec,
            Status :=
              { Token := tokdata,
                ExpirationTimestamp :=
                  (r.Claims svcacct pod secret out.Spec.ExpirationSeconds
                    out.Spec.Audiences).1.Expiry } } ∧
        o = some (Create r name obj).request) ∧
    ((Create r name obj).request ≠ obj →
      (Create r name obj).outcome
        = Outcome.returned (some (Create r name obj).request) none) := by
  have h := Create_atomic r name obj
  unfold AtomicRun at h
  refine ⟨h.1, h.2.1, h.2.2, ?_⟩
  intro hne
  cases hout : (Create r name obj).outcome with
  | panicked => exact absurd (h.2.1 hout) hne
  | returned o err =>
    cases err with
    | some e => exact absurd (h.1 o e hout).2 hne
    | none =>
      obtain ⟨_, _, _, _, _, _, _, _, ho⟩ := h.2.2 o hout
      rw [ho]

/-- Witness for C10: a request bound to a pod with a stale UID is answered with an
error, a nil object and an untouched request. -/
theorem Create_error_leaves_request_witness :
    (none : Option Object) = none ∧
      (Create exampleREST "sa" (Object.tokenRequest (exampleRequest "Pod" "uid-9"))).request
        = Object.tokenRequest (exampleRequest "Pod" "uid-9") :=
  (Create_error_leaves_request exampleREST "sa"
    (Object.tokenRequest (exampleRequest "Pod" "uid-9"))).1 none
    (Error.NewConflict { Group := "", Resource := "Pod" } "obj"
      (Error.Errorf
        "the UID in the bound object reference (%s) does not match the UID in record (%s). The object might have been deleted and then recreated"
        [Operand.str "uid-9", Operand.str "uid-1"]))
    (by simp [Create, exampleREST, exampleRequest, checkUID])

/-- On the success path of the example the status carries the issued token and the
expiry of the claims. -/
theorem Create_success_example :
    (Create exampleREST "sa" (Object.tokenRequest (exampleRequest "Pod" "uid-1"))).request
      = Object.tokenRequest
          { Spec := (exampleRequest "Pod" "uid-1").Spec,
            Status := { Token := "tok", ExpirationTimestamp := 3600 } } := by
  simp [Create, exampleREST, exampleRequest, checkUID, issue]

end Token
